import Mathlib

/-!
Verification development for the conversation-flow voice-agent core
(`backend/agent/flow_engine`): the dynamic variable store with template
interpolation and the equation mini-language (`dynamic_variables.py`),
flow-definition validation (`schema.py`), edge evaluation and node
execution (`nodes.py`), the flow-engine retry/fallback and
auto-continuation logic (`engine.py`), and the VAD state machine
(`vad_processor.py`).

Modelling conventions:
* Python strings are modelled as `List Char` (`Str`); `.lower()` is
  modelled ASCII-only (all inputs of interest are ASCII).
* Python floats are modelled as exact rationals (`ℚ`); IEEE rounding is
  not modelled.  All millisecond/byte arithmetic of the VAD processor is
  carried out in `ℚ`.
* External capabilities (the generation LLM, registered callables,
  extraction) are oracles: functions supplied as parameters; a `none`
  answer models a raised exception, which the source catches.
* Recursive Python functions whose recursion is not structural are
  modelled with an explicit fuel argument large enough to be irrelevant
  (`length + 1` style), keeping every definition kernel-executable.
-/

/-- Python `str` as a list of characters. -/
abbrev Str := List Char

/-- Literal helper: turn a Lean string literal into `Str`. -/
def str (s : String) : Str := s.data

/-- The `\x7b` character (left curly brace). -/
def braceL : Char := Char.ofNat 123

/-- The `\x7d` character (right curly brace). -/
def braceR : Char := Char.ofNat 125

/-- Python whitespace characters (`str.strip`, regex `\s`), ASCII part. -/
def isPyWS (c : Char) : Bool :=
  c == Char.ofNat 32 || c == Char.ofNat 9 || c == Char.ofNat 10 ||
  c == Char.ofNat 13 || c == Char.ofNat 11 || c == Char.ofNat 12

/-- Python `str.strip()`: drop leading and trailing whitespace. -/
def pyStrip (s : Str) : Str :=
  ((s.dropWhile isPyWS).reverse.dropWhile isPyWS).reverse

/-- Python `str.lower()`, modelled for ASCII letters. -/
def pyLower (s : Str) : Str := s.map Char.toLower

/-- Whether `pre` is a prefix of `s` (Python `str.startswith`). -/
def strStartsWith (pre s : Str) : Bool :=
  match pre, s with
  | [], _ => true
  | _ :: _, [] => false
  | p :: ps, c :: cs => p == c && strStartsWith ps cs

/-- Split `s` at the first occurrence of `sep` (Python `s.split(sep, 1)`
when `sep` occurs; `none` models `sep not in s`). -/
def splitOnce (sep : Str) : Str → Option (Str × Str)
  | [] => if sep.isEmpty then some ([], []) else none
  | c :: rest =>
    if strStartsWith sep (c :: rest) then
      some ([], (c :: rest).drop sep.length)
    else
      match splitOnce sep rest with
      | some (l, r) => some (c :: l, r)
      | none => none

/-- Python `sep in s` (substring containment). -/
def strContains (s sep : Str) : Bool := (splitOnce sep s).isSome

/-- Decimal digits of a natural number, fuel-driven so that the kernel
can evaluate it. -/
def natReprAux : Nat → Nat → Str
  | 0, _ => []
  | fuel + 1, n =>
    if n < 10 then [Char.ofNat (48 + n)]
    else natReprAux fuel (n / 10) ++ [Char.ofNat (48 + n % 10)]

/-- Decimal representation of a natural number. -/
def natRepr (n : Nat) : Str := natReprAux (n + 1) n

/-- Python `str(int)`: decimal representation with optional minus sign. -/
def intRepr (n : Int) : Str :=
  if n < 0 then Char.ofNat 45 :: natRepr n.natAbs else natRepr n.natAbs

/-- Python `int(...)` truncation toward zero of a rational: `Int.div`
is T-division, and a rational is `num/den` in lowest terms with a
positive denominator. -/
def pyInt (q : ℚ) : Int := Int.tdiv q.num (q.den : Int)

/-- Kernel-friendly maximum on `ℤ` (Python `max`). -/
def maxI (a b : Int) : Int := if a ≤ b then b else a

/-- Kernel-friendly maximum on `ℚ` (Python `max`). -/
def maxQ (a b : ℚ) : ℚ := if a ≤ b then b else a

/-- Regex `\w`: word character (ASCII model). -/
def isWordChar (c : Char) : Bool :=
  c.isAlpha || c.isDigit || c == Char.ofNat 95

/-- Values held by the `DynamicVariableStore` (`dynamic_variables.py`).
`vNone` models Python `None` stored as a value; `vFloat` models a Python
float as an exact rational (IEEE rounding is not modelled; no claim in
this development exercises float values). -/
inductive Value where
  | vNone : Value
  | vInt : Int → Value
  | vFloat : ℚ → Value
  | vBool : Bool → Value
  | vStr : Str → Value
deriving DecidableEq

/-- The variable store `self._variables`: an association list keyed by
variable name, first binding wins (`dict` lookup). -/
abbrev Store := List (Str × Value)

/-- `self._variables.get(name)`: `none` both when the key is missing and
models Python's `None` default. -/
def storeGet (s : Store) (name : Str) : Option Value :=
  match s with
  | [] => none
  | (k, v) :: rest => if k = name then some v else storeGet rest name

/-- `self._variables.get(name)` combined with the pervasive
`is not None` checks: a stored `None` behaves like a missing key. -/
def storeGetNonNull (s : Store) (name : Str) : Option Value :=
  match storeGet s name with
  | some Value.vNone => none
  | some v => some v
  | none => none

/-- `DynamicVariableStore.exists`: present and non-`None`. -/
def storeExists (s : Store) (name : Str) : Bool :=
  (storeGetNonNull s name).isSome

/-- `DynamicVariableStore.set`: replace the first binding or append. -/
def storeSet (s : Store) (name : Str) (v : Value) : Store :=
  match s with
  | [] => [(name, v)]
  | (k, w) :: rest =>
    if k = name then (k, v) :: rest else (k, w) :: storeSet rest name v

/-- Fractional decimal digits of a nonneg rational, fuel-limited
(helper for the unreached float `repr`). -/
def fracDigits : Nat → ℚ → Str
  | 0, _ => []
  | fuel + 1, q =>
    if q = 0 then []
    else
      let q10 := q * 10
      let d := (pyInt q10).toNat
      Char.ofNat (48 + d % 10) :: fracDigits fuel (q10 - (pyInt q10 : ℚ))

/-- Python `str(float)` approximated as plain decimal notation.  No
claim exercises this branch (documented model approximation). -/
def floatRepr (q : ℚ) : Str :=
  let sign : Str := if q < 0 then [Char.ofNat 45] else []
  let a := if q < 0 then -q else q
  let ip := (pyInt a).toNat
  let frac := fracDigits 32 (a - (ip : ℚ))
  sign ++ natRepr ip ++ [Char.ofNat 46] ++ (if frac.isEmpty then [Char.ofNat 48] else frac)

/-- Python `str(value)` on store values. -/
def pyStr : Value → Str
  | Value.vNone => str "None"
  | Value.vInt n => intRepr n
  | Value.vFloat q => floatRepr q
  | Value.vBool b => if b then str "True" else str "False"
  | Value.vStr s => s

/-- Python `bool(value)` on parsed values (truthiness). -/
def pyTruthy : Value → Bool
  | Value.vNone => false
  | Value.vInt n => n ≠ 0
  | Value.vFloat q => q ≠ 0
  | Value.vBool b => b
  | Value.vStr s => ¬s.isEmpty

/-- Try to match the regex `\{\{([^}]+)\}\}` at the head of `s`
(the placeholder pattern of `interpolate` / `_interpolate_for_eval`).
Returns the group-1 body and the remainder after the match.  The
character class `[^}]+` is greedy and cannot backtrack past a `\x7d`,
so maximal-munch is exact. -/
def tryPlaceholder (s : Str) : Option (Str × Str) :=
  match s with
  | c1 :: c2 :: t =>
    if c1 == braceL && c2 == braceL then
      let body := t.takeWhile (fun c => c != braceR)
      let rest := t.drop body.length
      if body.isEmpty then none
      else
        match rest with
        | d1 :: d2 :: r =>
          if d1 == braceR && d2 == braceR then some (body, r) else none
        | _ => none
    else none
  | _ => none

/-- The scanning loop of `re.sub(pattern, replace_var, template)`:
`resolve` returns the replacement text for a matched group body, or
`none` to keep the whole match verbatim (the `{{...}}` text). -/
def reSubFuel (resolve : Str → Option Str) : Nat → Str → Str
  | 0, s => s
  | _ + 1, [] => []
  | fuel + 1, c :: rest =>
    match tryPlaceholder (c :: rest) with
    | some (body, rem) =>
      (match resolve body with
       | some rep => rep
       | none => braceL :: braceL :: body ++ [braceR, braceR]) ++
      reSubFuel resolve fuel rem
    | none => c :: reSubFuel resolve fuel rest

/-- All placeholder bodies found by the same left-to-right scan. -/
def placeholdersFuel : Nat → Str → List Str
  | 0, _ => []
  | _ + 1, [] => []
  | fuel + 1, c :: rest =>
    match tryPlaceholder (c :: rest) with
    | some (body, rem) => body :: placeholdersFuel fuel rem
    | none => placeholdersFuel fuel rest

/-- The `{{name}}` placeholder bodies of a template, in scan order. -/
def placeholders (s : Str) : List Str := placeholdersFuel (s.length + 1) s

/-- `DynamicVariableStore.interpolate`: replace `{{name}}` with
`str(value)` when `name` (stripped) is present and non-`None`, keep the
placeholder verbatim otherwise.  Empty templates are returned as-is. -/
def interpolate (store : Store) (template : Str) : Str :=
  if template.isEmpty then template
  else
    reSubFuel
      (fun body =>
        match storeGetNonNull store (pyStrip body) with
        | some v => some (pyStr v)
        | none => none)
      (template.length + 1) template

/-- `DynamicVariableStore._interpolate_for_eval`: type-aware
substitution (strings quoted, booleans lowercased, missing/`None`
variables become `""`). -/
def interpolate_for_eval (store : Store) (template : Str) : Str :=
  if template.isEmpty then template
  else
    reSubFuel
      (fun body =>
        some (match storeGetNonNull store (pyStrip body) with
          | none => [Char.ofNat 34, Char.ofNat 34]
          | some (Value.vStr s) => Char.ofNat 34 :: s ++ [Char.ofNat 34]
          | some (Value.vBool b) => if b then str "true" else str "false"
          | some v => pyStr v))
      (template.length + 1) template

/-- Parse an optional sign followed by a nonempty digit run
(Python `int(...)` on a stripped string; digit-separating underscores
are not modelled, no input of interest contains them). -/
def parseIntStr (s : Str) : Option Int :=
  let (neg, digits) :=
    match s with
    | c :: rest =>
      if c == Char.ofNat 45 then (true, rest)
      else if c == Char.ofNat 43 then (false, rest)
      else (false, s)
    | [] => (false, s)
  if digits.isEmpty || ¬(digits.all Char.isDigit) then none
  else
    let n : Nat := digits.foldl (fun acc c => acc * 10 + (c.toNat - 48)) 0
    some (if neg then -(n : Int) else (n : Int))

/-- Parse a decimal float literal `[+-]digits.digits` (Python
`float(...)`; exponent/`inf`/`nan` forms are not modelled — unreachable
in every claim). -/
def parseFloatStr (s : Str) : Option ℚ :=
  let (neg, body) :=
    match s with
    | c :: rest =>
      if c == Char.ofNat 45 then (true, rest)
      else if c == Char.ofNat 43 then (false, rest)
      else (false, s)
    | [] => (false, s)
  match splitOnce [Char.ofNat 46] body with
  | some (ip, fp) =>
    if (ip.isEmpty && fp.isEmpty) || ¬(ip.all Char.isDigit) || ¬(fp.all Char.isDigit) then none
    else
      let ipv : ℚ := (ip.foldl (fun acc c => acc * 10 + (c.toNat - 48)) 0 : Nat)
      let fpv : ℚ := (fp.foldl (fun acc c => acc * 10 + (c.toNat - 48)) 0 : Nat)
      let q := ipv + fpv / ((10 : ℚ) ^ fp.length)
      some (if neg then -q else q)
  | none => none

/-- `DynamicVariableStore._parse_value`: strip, unquote, try number
(float when a `.` is present, else int), then boolean literals, else
keep as a string. -/
def parse_value (s0 : Str) : Value :=
  let s := pyStrip s0
  let q1 := Char.ofNat 34
  let q2 := Char.ofNat 39
  if s.head? == some q1 && s.getLast? == some q1 then
    Value.vStr ((s.drop 1).dropLast)
  else if s.head? == some q2 && s.getLast? == some q2 then
    Value.vStr ((s.drop 1).dropLast)
  else
    let numTry : Option Value :=
      if strContains s [Char.ofNat 46] then
        (parseFloatStr s).map Value.vFloat
      else
        (parseIntStr s).map Value.vInt
    match numTry with
    | some v => v
    | none =>
      if pyLower s = str "true" then Value.vBool true
      else if pyLower s = str "false" then Value.vBool false
      else Value.vStr s

/-- The comparison operators of `evaluate_equation`, in source order. -/
inductive CmpOp where
  | ge | le | gt | lt | ne | eq | containsOp | notContainsOp
deriving DecidableEq

/-- `comparison_ops`: the `(op_str, op_func)` scan list, in the exact
order of the source. -/
def comparison_ops : List (Str × CmpOp) :=
  [ (str ">=", CmpOp.ge), (str "<=", CmpOp.le),
    (str ">>", CmpOp.gt), (str "<<", CmpOp.lt),
    (str "!=", CmpOp.ne), (str "==", CmpOp.eq),
    (str "CONTAINS", CmpOp.containsOp),
    (str "NOT CONTAINS", CmpOp.notContainsOp) ]

/-- The operator-scan loop: first `op_str` contained in the interpolated
equation wins; the equation is split once at that operator. -/
def chooseOpAux : List (Str × CmpOp) → Str → Option (CmpOp × Str × Str)
  | [], _ => none
  | (tok, op) :: rest, s =>
    match splitOnce tok s with
    | some (l, r) => some (op, l, r)
    | none => chooseOpAux rest s

/-- Scan `comparison_ops` against an interpolated equation. -/
def chooseOp (s : Str) : Option (CmpOp × Str × Str) := chooseOpAux comparison_ops s

/-- Numeric view used by Python's cross-type numeric comparisons
(`bool` is an `int` in Python). -/
def numVal : Value → Option ℚ
  | Value.vInt n => some (n : ℚ)
  | Value.vFloat q => some q
  | Value.vBool b => some (if b then 1 else 0)
  | _ => none

/-- Lexicographic order on Python strings (code-point order). -/
def strLt : Str → Str → Bool
  | [], [] => false
  | [], _ :: _ => true
  | _ :: _, [] => false
  | a :: as', b :: bs => if a = b then strLt as' bs else a < b

/-- Python `==` on parsed operand values: numeric across int/float/bool,
structural on strings, `False` across types (no exception). -/
def pyEq (a b : Value) : Bool :=
  match numVal a, numVal b with
  | some x, some y => x = y
  | _, _ =>
    match a, b with
    | Value.vStr s, Value.vStr t => s = t
    | Value.vNone, Value.vNone => true
    | _, _ => false

/-- `DynamicVariableStore._contains`: substring test on strings, `False`
otherwise.  The list/tuple branch of the source is unreachable here
because both operands come from `_parse_value`, which never returns a
collection. -/
def contains_fn (haystack needle : Value) : Bool :=
  match haystack, needle with
  | Value.vStr h, Value.vStr n => strContains h n
  | _, _ => false

/-- `DynamicVariableStore._not_contains`. -/
def not_contains_fn (haystack needle : Value) : Bool :=
  !contains_fn haystack needle

/-- Apply a comparison operator as `evaluate_equation` does: an ordering
comparison between incompatible types raises `TypeError` in Python,
which the source catches and turns into `False`. -/
def applyCmp : CmpOp → Value → Value → Bool
  | CmpOp.eq, a, b => pyEq a b
  | CmpOp.ne, a, b => ¬pyEq a b
  | CmpOp.gt, a, b =>
    match numVal a, numVal b with
    | some x, some y => y < x
    | _, _ =>
      match a, b with
      | Value.vStr s, Value.vStr t => strLt t s
      | _, _ => false
  | CmpOp.lt, a, b =>
    match numVal a, numVal b with
    | some x, some y => x < y
    | _, _ =>
      match a, b with
      | Value.vStr s, Value.vStr t => strLt s t
      | _, _ => false
  | CmpOp.ge, a, b =>
    match numVal a, numVal b with
    | some x, some y => y ≤ x
    | _, _ =>
      match a, b with
      | Value.vStr s, Value.vStr t => ¬strLt s t
      | _, _ => false
  | CmpOp.le, a, b =>
    match numVal a, numVal b with
    | some x, some y => x ≤ y
    | _, _ =>
      match a, b with
      | Value.vStr s, Value.vStr t => ¬strLt t s
      | _, _ => false
  | CmpOp.containsOp, a, b => contains_fn a b
  | CmpOp.notContainsOp, a, b => not_contains_fn a b

/-- Try the regex
`\{\{(\w+)\}\}\s+(exists|not exists|not_exists)` (IGNORECASE,
anchored at the start, trailing text ignored).  Returns the variable
name and whether `not` occurred in the matched alternative. -/
def matchExists (s : Str) : Option (Str × Bool) :=
  match s with
  | c1 :: c2 :: t =>
    if c1 == braceL && c2 == braceL then
      let name := t.takeWhile isWordChar
      let rest := t.drop name.length
      if name.isEmpty then none
      else
        match rest with
        | d1 :: d2 :: r =>
          if d1 == braceR && d2 == braceR then
            let ws := r.takeWhile isPyWS
            let tail := r.drop ws.length
            if ws.isEmpty then none
            else if strStartsWith (str "exists") (pyLower tail) then
              some (name, false)
            else if strStartsWith (str "not exists") (pyLower tail) then
              some (name, true)
            else if strStartsWith (str "not_exists") (pyLower tail) then
              some (name, true)
            else none
          else none
        | _ => none
    else none
  | _ => none

/-- Try the second regex `\{\{(\w+)\}\}\s+not\s+exists` (IGNORECASE,
anchored at the start). -/
def matchNotExists (s : Str) : Option Str :=
  match s with
  | c1 :: c2 :: t =>
    if c1 == braceL && c2 == braceL then
      let name := t.takeWhile isWordChar
      let rest := t.drop name.length
      if name.isEmpty then none
      else
        match rest with
        | d1 :: d2 :: r =>
          if d1 == braceR && d2 == braceR then
            let ws1 := r.takeWhile isPyWS
            let t1 := r.drop ws1.length
            if ws1.isEmpty then none
            else if strStartsWith (str "not") (pyLower t1) then
              let t2 := t1.drop 3
              let ws2 := t2.takeWhile isPyWS
              let t3 := t2.drop ws2.length
              if ws2.isEmpty then none
              else if strStartsWith (str "exists") (pyLower t3) then some name
              else none
            else none
          else none
        | _ => none
    else none
  | _ => none

/-- Token `" OR "`. -/
def orTok : Str := str " OR "

/-- Token `" AND "`. -/
def andTok : Str := str " AND "

/-- The non-recursive tail of `evaluate_equation` once `OR`/`AND`
splitting is done: `exists` regexes, interpolation, operator scan,
truthiness fallback. -/
def evalEqAtom (store : Store) (eq : Str) : Bool :=
  match matchExists eq with
  | some (name, isNot) =>
    let result := storeExists store name
    if isNot then ¬result else result
  | none =>
    match matchNotExists eq with
    | some name => ¬storeExists store name
    | none =>
      let interpolated := interpolate_for_eval store eq
      match chooseOp interpolated with
      | some (op, l, r) => applyCmp op (parse_value (pyStrip l)) (parse_value (pyStrip r))
      | none => pyTruthy (parse_value interpolated)

/-- `DynamicVariableStore.evaluate_equation`, fuel-driven (the source
recurses on strictly shorter halves of `OR`/`AND` splits). -/
def evalEqFuel (store : Store) : Nat → Str → Bool
  | 0, _ => false
  | fuel + 1, eq0 =>
    if eq0.isEmpty then true
    else
      let eq := pyStrip eq0
      match splitOnce orTok eq with
      | some (l, r) => evalEqFuel store fuel l || evalEqFuel store fuel r
      | none =>
        match splitOnce andTok eq with
        | some (l, r) => evalEqFuel store fuel l && evalEqFuel store fuel r
        | none => evalEqAtom store eq

/-- `DynamicVariableStore.evaluate_equation`. -/
def evaluate_equation (store : Store) (eq : Str) : Bool :=
  evalEqFuel store (eq.length + 1) eq

/-- `TransitionConditionType` (`schema.py`). -/
inductive CondType where
  | prompt | equation
deriving DecidableEq

/-- `TransitionCondition` (`schema.py`). -/
structure TransitionCondition where
  ctype : CondType
  condition : Str
  description : Option Str := none
deriving DecidableEq

/-- `Edge` (`schema.py`): priority is an `int`, lower = evaluated
first. -/
structure Edge where
  id : Str
  target_node_id : Str
  conditions : List TransitionCondition := []
  is_default : Bool := false
  priority : Int := 0
deriving DecidableEq

/-- A declared variable of an `ExtractVariableNode` (the source keeps a
`dict` with keys `name`/`description`/`type`; the `.get` defaults are
already applied here). -/
structure ExtractVarDef where
  name : Str := []
  description : Str := []
  vtype : Str := str "string"
deriving DecidableEq

/-- Kind-specific payload of a node (the source uses one dataclass
subclass per `NodeType`). -/
inductive NodeKind where
  | conversation (instruction : Str) (extract_variables : List Str)
      (response_template : Option Str) (auto_respond : Bool)
      (examples : List (Str × Str))
  | function (function_name : Str) (parameters : List (Str × Value))
      (result_variable : Option Str) (pending_message : Option Str)
      (success_message : Option Str) (failure_message : Option Str)
  | logicSplit
  | endNode (message : Str) (end_reason : Str)
  | transfer (message : Str) (destination : Option Str) (transfer_reason : Str)
  | extractVariable (var_defs : List ExtractVarDef) (extraction_prompt : Option Str)
deriving DecidableEq

/-- `NodeBase` plus the kind payload (`schema.py`).  The per-node LLM
override fields (`llm_model`, `temperature`) are carried nowhere by the
executor and are omitted. -/
structure Node where
  id : Str
  name : Str := []
  edges : List Edge := []
  kind : NodeKind
deriving DecidableEq

/-- `GlobalSettings` (`schema.py`).  Model/voice/language knobs that no
modelled operation reads are omitted; the fields driving the engine,
validation and VAD wiring are kept.  The `int` millisecond/retry fields
are modelled as `Nat` (they are durations/counts; negative
configurations are not modelled). -/
structure GlobalSettings where
  system_prompt : Str := str "You are a helpful voice assistant."
  max_retries : Nat := 3
  fallback_node_id : Option Str := none
  vad_enabled : Bool := true
  silence_threshold_ms : Nat := 500
  min_speech_duration_ms : Nat := 250
  allow_interruptions : Bool := true
  initial_variables : Store := []
deriving DecidableEq

/-- `FlowDefinition` (`schema.py`): `nodes` is a `dict` in insertion
order, modelled as an association list keyed by node id. -/
structure FlowDefinition where
  id : Str
  name : Str := []
  version : Str := str "1.0.0"
  global_settings : GlobalSettings := {}
  start_node_id : Str := []
  nodes : List (Str × Node) := []
deriving DecidableEq

/-- `node_id in self.nodes` (dict key membership). -/
def nodeIdKnown (flow : FlowDefinition) (nid : Str) : Bool :=
  flow.nodes.any (fun p => p.1 = nid)

/-- Dict lookup in the node table (helper for `get_node`). -/
def lookupNode : List (Str × Node) → Str → Option Node
  | [], _ => none
  | (k, v) :: rest, nid => if k = nid then some v else lookupNode rest nid

/-- `FlowDefinition.get_node`. -/
def get_node (flow : FlowDefinition) (nid : Str) : Option Node :=
  lookupNode flow.nodes nid

/-- Python truthiness of an `Optional[str]`: `None` and `""` are falsy. -/
def optTruthy : Option Str → Bool
  | some s => !s.isEmpty
  | none => false

/-- `FlowDefinition.validate`: collected (not fail-fast) error list. -/
def validate (flow : FlowDefinition) : List Str :=
  let startErrs : List Str :=
    if flow.start_node_id.isEmpty then [str "start_node_id is required"]
    else if nodeIdKnown flow flow.start_node_id then []
    else [str "start_node_id \x27" ++ flow.start_node_id ++ str "\x27 does not exist in nodes"]
  let edgeErrs : List Str :=
    flow.nodes.flatMap (fun p =>
      p.2.edges.filterMap (fun e =>
        if nodeIdKnown flow e.target_node_id then none
        else
          some (str "Node \x27" ++ p.1 ++ str "\x27 has edge to non-existent node \x27" ++
            e.target_node_id ++ str "\x27")))
  let fallbackErrs : List Str :=
    if optTruthy flow.global_settings.fallback_node_id then
      let f := flow.global_settings.fallback_node_id.getD []
      if nodeIdKnown flow f then []
      else [str "fallback_node_id \x27" ++ f ++ str "\x27 does not exist"]
    else []
  startErrs ++ edgeErrs ++ fallbackErrs

/-- `NodeResultType` (`nodes.py`). -/
inductive NodeResultType where
  | response | continueNext | endConv | transfer | error | waitInput
deriving DecidableEq

/-- `NodeResult` (`nodes.py`), with the dataclass defaults. -/
structure NodeResult where
  result_type : NodeResultType
  response_text : Option Str := none
  next_node_id : Option Str := none
  extracted_variables : List (Str × Value) := []
  should_wait_for_input : Bool := true
  error_message : Option Str := none
  metadata : List (Str × Value) := []
deriving DecidableEq

/-- `metadata.get(key, default)`. -/
def metaGet (m : List (Str × Value)) (key : Str) (default : Value) : Value :=
  match m with
  | [] => default
  | (k, v) :: rest => if k = key then v else metaGet rest key default

/-- External capabilities, abstracted at the interface boundary the
spec defines (§6): the generation LLM (`generate(prompt, context?)`;
`none` models a raised exception), the registered-callable registry
(outer `none` = unregistered name, inner `none` = the call raised), and
the batched multi-variable JSON extraction (the LLM round-trip plus
JSON parsing of `_extract_variables_from_input`, returned as the parsed
mapping; `none` models any exception on that path). -/
structure Oracle where
  generate : Str → Option (Str × List (Str × Str)) → Option Str
  functions : Str → Option (List (Str × Value) → Option Value)
  extractMulti : Str → List Str → Option (List (Str × Value))

/-- Placeholder for `str(e)` of a caught Python exception (no claim
inspects exception text). -/
def excText : Str := str "exception"

/-- Stable insertion respecting `priority` (helper for the stable
ascending sort `sorted(edges, key=lambda e: e.priority)`). -/
def insertByPriority (e : Edge) : List Edge → List Edge
  | [] => [e]
  | x :: xs =>
    if x.priority < e.priority then x :: insertByPriority e xs
    else e :: x :: xs

/-- `sorted(edges, key=lambda e: e.priority)`: Python's sort is stable,
and a stable sort by key is a unique function, so stable insertion sort
computes the same list. -/
def sortEdges : List Edge → List Edge
  | [] => []
  | e :: rest => insertByPriority e (sortEdges rest)

/-- Pass 1 of `_evaluate_transitions`: first edge carrying equation
conditions that all evaluate true. -/
def pass1Equations (store : Store) : List Edge → Option Str
  | [] => none
  | e :: rest =>
    let eqConds := e.conditions.filter (fun c => decide (c.ctype = CondType.equation))
    if !eqConds.isEmpty && eqConds.all (fun c => evaluate_equation store c.condition) then
      some e.target_node_id
    else pass1Equations store rest

/-- Newline-join (`"\n".join(...)`). -/
def joinNL : List Str → Str
  | [] => []
  | [s] => s
  | s :: rest => s ++ [Char.ofNat 10] ++ joinNL rest

/-- The yes/no judgment prompt built for one edge's prompt conditions. -/
def buildEvalPrompt (conditionsText userInput : Str) : Str :=
  str "Determine if the user\x27s message matches these conditions:\n" ++
  conditionsText ++
  str "\n\nUser said: \"" ++ userInput ++
  str "\"\n\nDoes the user\x27s message satisfy ALL of these conditions?\nReply with only \"yes\" or \"no\"."

/-- Pass 2 of `_evaluate_transitions`: prompt-condition edges judged by
the generation capability; an exception on one edge is caught and the
loop continues. -/
def pass2Prompts (o : Oracle) (user_input : Option Str) : List Edge → Option Str
  | [] => none
  | e :: rest =>
    let promptConds := e.conditions.filter (fun c => decide (c.ctype = CondType.prompt))
    if !promptConds.isEmpty && optTruthy user_input then
      let conditionsText := joinNL (promptConds.map (fun c => str "- " ++ c.condition))
      let evalPrompt := buildEvalPrompt conditionsText (user_input.getD [])
      match o.generate evalPrompt none with
      | some resp =>
        if !resp.isEmpty && strStartsWith (str "yes") (pyLower (pyStrip resp)) then
          some e.target_node_id
        else pass2Prompts o user_input rest
      | none => pass2Prompts o user_input rest
    else pass2Prompts o user_input rest

/-- Pass 3 of `_evaluate_transitions`: first edge flagged default. -/
def pass3Default : List Edge → Option Str
  | [] => none
  | e :: rest => if e.is_default then some e.target_node_id else pass3Default rest

/-- `NodeExecutor._evaluate_transitions`. -/
def evaluate_transitions (o : Oracle) (edges : List Edge) (user_input : Option Str)
    (store : Store) : Option Str :=
  if edges.isEmpty then none
  else
    let sorted := sortEdges edges
    match pass1Equations store sorted with
    | some t => some t
    | none =>
      match pass2Prompts o user_input sorted with
      | some t => some t
      | none => pass3Default sorted

/-- Render an `Optional[str]` inside an f-string (Python prints `None`
for an absent value). -/
def pyShowOptStr : Option Str → Str
  | none => str "None"
  | some s => s

/-- `NodeExecutor._build_conversation_prompt`. -/
def build_conversation_prompt (instruction_interp : Str) (examples : List (Str × Str))
    (user_input : Option Str) : Str :=
  let examplesText : Str :=
    if examples.isEmpty then []
    else
      str "\n\nExamples:\n" ++
      (examples.flatMap (fun ex =>
        str "User: " ++ ex.1 ++ str "\nAgent: " ++ ex.2 ++ str "\n\n"))
  instruction_interp ++ examplesText ++ str "\n\nUser: " ++ pyShowOptStr user_input ++
  str "\n\nRespond appropriately based on the instruction. Keep response concise for voice."

/-- The multi-variable extraction prompt of
`_extract_variables_from_input`. -/
def buildMultiExtractionPrompt (varsDesc user_input : Str) : Str :=
  str "Extract the following information from the user\x27s message.\nVariables to extract: " ++
  varsDesc ++ str "\n\nUser said: \"" ++ user_input ++
  str "\"\n\nFor each variable, return the extracted value. If a variable is not found, return null.\nReturn as JSON object with variable names as keys.\nOnly return the JSON, no explanation."

/-- Comma-join (`", ".join(...)`). -/
def joinComma : List Str → Str
  | [] => []
  | [s] => s
  | s :: rest => s ++ str ", " ++ joinComma rest

/-- `NodeExecutor._extract_variables_from_input`: the LLM/JSON round
trip is the `extractMulti` oracle; the source then filters the parsed
mapping down to the requested names with non-`None` values, and any
exception yields the empty mapping. -/
def extract_variables_from_input (o : Oracle) (user_input : Str)
    (variable_names : List Str) : List (Str × Value) :=
  if variable_names.isEmpty then []
  else
    match o.extractMulti user_input variable_names with
    | none => []
    | some extracted =>
      variable_names.filterMap (fun n =>
        match storeGet extracted n with
        | some v => if v = Value.vNone then none else some (n, v)
        | none => none)

/-- The single-variable extraction prompt of
`_extract_single_variable`. -/
def buildSingleExtractionPrompt (description vtype user_input : Str) : Str :=
  str "Extract the " ++ description ++ str " from this text.\nExpected type: " ++ vtype ++
  str "\nText: \"" ++ user_input ++
  str "\"\n\nReturn only the extracted value, nothing else. \nIf not found, return exactly \"null\"."

/-- `NodeExecutor._extract_single_variable` (typed coercion of the
generation answer; an exception or a literal `null`/empty answer is
"not found"). -/
def extract_single_variable (o : Oracle) (user_input _var_name description vtype : Str) :
    Option Value :=
  let prompt := buildSingleExtractionPrompt description vtype user_input
  match o.generate prompt none with
  | none => none
  | some resp0 =>
    let resp := pyStrip resp0
    if pyLower resp = str "null" || resp.isEmpty then none
    else if vtype = str "number" then
      if strContains resp [Char.ofNat 46] then
        match parseFloatStr resp with
        | some q => some (Value.vFloat q)
        | none => some (Value.vStr resp)
      else
        match parseIntStr resp with
        | some n => some (Value.vInt n)
        | none => some (Value.vStr resp)
    else if vtype = str "boolean" then
      some (Value.vBool (pyLower resp = str "true" || pyLower resp = str "yes" ||
        pyLower resp = str "1"))
    else some (Value.vStr resp)

/-- `Optional[str]` that is `None` or empty is replaced by a fallback
(Python `a or b` on strings). -/
def orElseStr (a : Option Str) (b : Str) : Str :=
  match a with
  | some s => if s.isEmpty then b else s
  | none => b

/-- `NodeExecutor._execute_conversation`.  Returns the (possibly
mutated) store together with the result. -/
def execute_conversation (o : Oracle) (system_prompt : Str) (node : Node)
    (instruction : Str) (extract_vars : List Str) (response_template : Option Str)
    (auto_respond : Bool) (examples : List (Str × Str))
    (user_input : Option Str) (vars : Store) (hist : List (Str × Str)) :
    Store × NodeResult :=
  if user_input.isNone && auto_respond then
    (vars,
      { result_type := NodeResultType.response
        response_text := some (interpolate vars (orElseStr response_template instruction))
        should_wait_for_input := true })
  else
    let extracted :=
      if optTruthy user_input && !extract_vars.isEmpty then
        extract_variables_from_input o (user_input.getD []) extract_vars
      else []
    let vars1 := extracted.foldl (fun st p => storeSet st p.1 p.2) vars
    let prompt := build_conversation_prompt (interpolate vars1 instruction) examples user_input
    match o.generate prompt (some (system_prompt, hist)) with
    | none =>
      (vars1, { result_type := NodeResultType.error, error_message := some excText })
    | some resp =>
      let next := evaluate_transitions o node.edges user_input vars1
      (vars1,
        { result_type := NodeResultType.response
          response_text := some resp
          next_node_id := next
          extracted_variables := extracted
          should_wait_for_input := next.isNone })

/-- `NodeExecutor._execute_function`. -/
def execute_function (o : Oracle) (node : Node) (function_name : Str)
    (parameters : List (Str × Value)) (result_variable : Option Str)
    (pending_message success_message failure_message : Option Str)
    (vars : Store) : Store × NodeResult :=
  match o.functions function_name with
  | none =>
    (vars,
      { result_type := NodeResultType.error
        error_message := some (str "Function not found: " ++ function_name)
        response_text :=
          if optTruthy failure_message then
            some (interpolate vars (failure_message.getD []))
          else none })
  | some f =>
    let params := parameters.map (fun p =>
      match p.2 with
      | Value.vStr s => (p.1, Value.vStr (interpolate vars s))
      | v => (p.1, v))
    let pendingText : Option Str :=
      if optTruthy pending_message then some (interpolate vars (pending_message.getD []))
      else none
    match f params with
    | none =>
      let failureResponse :=
        if optTruthy failure_message then interpolate vars (failure_message.getD [])
        else str "Sorry, I encountered an error: " ++ excText
      (vars,
        { result_type := NodeResultType.response
          response_text := some failureResponse
          error_message := some excText })
    | some ret =>
      let vars1 :=
        if optTruthy result_variable then storeSet vars (result_variable.getD []) ret
        else vars
      let (vars2, responseText) :=
        if optTruthy success_message then
          let vs := storeSet vars1 (str "result") ret
          (vs, some (interpolate vs (success_message.getD [])))
        else (vars1, pendingText)
      let next := evaluate_transitions o node.edges none vars2
      (vars2,
        { result_type :=
            if optTruthy responseText then NodeResultType.response
            else NodeResultType.continueNext
          response_text := responseText
          next_node_id := next
          extracted_variables :=
            if optTruthy result_variable then [(str "result", ret)] else []
          should_wait_for_input := false
          metadata := [(str "function_result", ret)] })

/-- `NodeExecutor._execute_extract_variable`. -/
def execute_extract_variable (o : Oracle) (node : Node)
    (var_defs : List ExtractVarDef) (user_input : Option Str) (vars : Store) :
    Store × NodeResult :=
  if optTruthy user_input = false then
    (vars, { result_type := NodeResultType.waitInput, should_wait_for_input := true })
  else
    let input := user_input.getD []
    let (vars1, extracted) :=
      var_defs.foldl
        (fun acc vd =>
          match extract_single_variable o input vd.name vd.description vd.vtype with
          | some v => (storeSet acc.1 vd.name v, acc.2 ++ [(vd.name, v)])
          | none => acc)
        (vars, [])
    let next := evaluate_transitions o node.edges user_input vars1
    (vars1,
      { result_type := NodeResultType.continueNext
        next_node_id := next
        extracted_variables := extracted
        should_wait_for_input := false })

/-- `NodeExecutor.execute`: dispatch on the node kind.  The `try`
wrapper of the source converts any escaped exception into an
error-kind result; in this model the only raising operations are the
oracles, already handled inside each handler. -/
def executeNode (o : Oracle) (system_prompt : Str) (node : Node)
    (user_input : Option Str) (vars : Store) (hist : List (Str × Str)) :
    Store × NodeResult :=
  match node.kind with
  | NodeKind.conversation instruction extract_vars response_template auto_respond examples =>
    execute_conversation o system_prompt node instruction extract_vars response_template
      auto_respond examples user_input vars hist
  | NodeKind.function fn params resVar pending success failure =>
    execute_function o node fn params resVar pending success failure vars
  | NodeKind.logicSplit =>
    (vars,
      { result_type := NodeResultType.continueNext
        next_node_id := evaluate_transitions o node.edges none vars
        should_wait_for_input := false })
  | NodeKind.endNode message end_reason =>
    (vars,
      { result_type := NodeResultType.endConv
        response_text := some (interpolate vars message)
        should_wait_for_input := false
        metadata := [(str "end_reason", Value.vStr end_reason)] })
  | NodeKind.transfer message destination transfer_reason =>
    (vars,
      { result_type := NodeResultType.transfer
        response_text := some (interpolate vars message)
        should_wait_for_input := false
        metadata := [(str "transfer_reason", Value.vStr transfer_reason),
          (str "destination",
            match destination with
            | some d => Value.vStr d
            | none => Value.vNone)] })
  | NodeKind.extractVariable var_defs _ =>
    execute_extract_variable o node var_defs user_input vars

/-- `ConversationTurn` (`engine.py`); the node id is already resolved by
`add_turn` (`node_id or self.current_node_id`). -/
structure ConversationTurn where
  role : Str
  text : Str
  node_id : Str
deriving DecidableEq

/-- `FlowState` (`engine.py`): the per-session mutable state.  The
source field `variables` is spelled `varStore` here (reserved word in
Lean). -/
structure FlowState where
  flow_id : Str
  session_id : Str
  current_node_id : Str
  varStore : Store
  history : List ConversationTurn := []
  retry_count : Nat := 0
  is_complete : Bool := false
  end_reason : Option Value := none
deriving DecidableEq

/-- `FlowState.add_turn` (timestamps are not modelled). -/
def add_turn (st : FlowState) (role text : Str) (node_id : Option Str) : FlowState :=
  let resolved :=
    match node_id with
    | some nid => if nid.isEmpty then st.current_node_id else nid
    | none => st.current_node_id
  {st with history := st.history ++ [⟨role, text, resolved⟩]}

/-- `FlowState.get_history_for_llm` with the default `max_turns = 10`. -/
def get_history_for_llm (st : FlowState) : List (Str × Str) :=
  let recent :=
    if st.history.length > 10 then st.history.drop (st.history.length - 10)
    else st.history
  recent.map (fun t => (t.role, t.text))

/-- The response-recording prologue of `_handle_node_result` (a truthy
`response_text` is appended to the history as an agent turn). -/
def recordAgentResponse (st : FlowState) (res : NodeResult) : FlowState :=
  if optTruthy res.response_text then
    add_turn st (str "agent") (res.response_text.getD []) (some st.current_node_id)
  else st

/-- The result-type dispatch of `_handle_node_result`: END and TRANSFER
complete the session; an ERROR result applies the retry/fallback policy
— and only when a fallback node id is configured (truthy). -/
def afterResultType (flow : FlowDefinition) (st : FlowState) (res : NodeResult) : FlowState :=
  match res.result_type with
  | NodeResultType.endConv =>
    {st with
      is_complete := true
      end_reason := some (metaGet res.metadata (str "end_reason") (Value.vStr (str "completed")))}
  | NodeResultType.transfer =>
    {st with is_complete := true, end_reason := some (Value.vStr (str "transfer"))}
  | NodeResultType.error =>
    if optTruthy flow.global_settings.fallback_node_id then
      let rc := st.retry_count + 1
      if rc ≤ flow.global_settings.max_retries then
        {st with
          retry_count := rc
          current_node_id := flow.global_settings.fallback_node_id.getD []}
      else
        {st with
          retry_count := rc
          is_complete := true
          end_reason := some (Value.vStr (str "max_retries"))}
    else st
  | _ => st

/-- State reached by one invocation of `_handle_node_result` just
before the zero-wait auto-continuation point: response recording, the
result-type dispatch, and the transition block (which resets the retry
counter).  All state mutation of the invocation happens here; the
recursive continuation (see `handleNodeResultFuel`) only executes
further nodes. -/
def applyResult (flow : FlowDefinition) (st : FlowState) (res : NodeResult) : FlowState :=
  let stA := afterResultType flow (recordAgentResponse st res) res
  if optTruthy res.next_node_id && !stA.is_complete then
    {stA with current_node_id := res.next_node_id.getD [], retry_count := 0}
  else stA

/-- `FlowEngine._handle_node_result` with an explicit recursion-depth
fuel: the source recurses without any cap whenever the applied result
carries a truthy next-node id with `should_wait_for_input = False` and
the target node exists; `none` means the recursion depth exceeded the
given fuel.  A turn terminates in the source iff the value is `some`
for some fuel. -/
def handleNodeResultFuel (flow : FlowDefinition) (o : Oracle) :
    Nat → FlowState → NodeResult → Option (FlowState × NodeResult)
  | 0, _, _ => none
  | fuel + 1, st, res =>
    let stA := afterResultType flow (recordAgentResponse st res) res
    if optTruthy res.next_node_id && !stA.is_complete then
      let stB := {stA with current_node_id := res.next_node_id.getD [], retry_count := 0}
      if !res.should_wait_for_input then
        match get_node flow (res.next_node_id.getD []) with
        | some nextNode =>
          let (vars1, res2) :=
            executeNode o flow.global_settings.system_prompt nextNode none stB.varStore
              (get_history_for_llm stB)
          handleNodeResultFuel flow o fuel {stB with varStore := vars1} res2
        | none => some (stB, res)
      else some (stB, res)
    else some (stA, res)

/-- Raw audio bytes. -/
abbrev Bytes := List Nat

/-- `SpeechState` (`vad_processor.py`). -/
inductive SpeechState where
  | silence | speaking | pause | speechComplete
deriving DecidableEq

/-- `VADConfig` (`vad_processor.py`): the millisecond/sample fields are
Python `int`s, modelled as `Nat` (durations); the speech-probability
and energy thresholds parameterize the frame classifier, which this
model abstracts into the per-frame boolean verdict, so they are
omitted. -/
structure VADConfig where
  min_speech_duration_ms : Nat := 250
  silence_threshold_ms : Nat := 500
  max_pause_duration_ms : Nat := 800
  speech_pad_ms : Nat := 100
  sample_rate : Nat := 24000
  frame_duration_ms : Nat := 30
deriving DecidableEq

/-- `self._silence_frame_threshold = int(silence_threshold_ms /
frame_duration_ms)`: for the nonnegative configuration this `int()` of
a true division is floor division, i.e. `Nat` division. -/
def silence_frame_threshold (cfg : VADConfig) : Nat :=
  cfg.silence_threshold_ms / cfg.frame_duration_ms

/-- `self._min_speech_frames = int(min_speech_duration_ms /
frame_duration_ms)`. -/
def min_speech_frames (cfg : VADConfig) : Nat :=
  cfg.min_speech_duration_ms / cfg.frame_duration_ms

/-- `AudioBuffer` (`vad_processor.py`). -/
structure AudioBuffer where
  frames : List Bytes := []
  total_duration_ms : ℚ := 0
  speech_start_ms : Option ℚ := none
  speech_end_ms : Option ℚ := none
deriving DecidableEq

/-- `AudioBuffer.add_frame`. -/
def addFrame (buf : AudioBuffer) (data : Bytes) (d : ℚ) : AudioBuffer :=
  {buf with
    frames := buf.frames ++ [data]
    total_duration_ms := buf.total_duration_ms + d}

/-- `AudioBuffer.get_speech_segment`: byte positions from millisecond
marks at `bytes_per_ms = sample_rate * 2 / 1000`.  Python's
`speech_end_ms or total_duration_ms` treats `0.0` as falsy; a negative
end position (unreachable for buffers the processor builds) would
index from the end in Python and is not modelled. -/
def get_speech_segment (sample_rate : Nat) (buf : AudioBuffer) : Option Bytes :=
  match buf.speech_start_ms with
  | none => none
  | some startMs =>
    let allAudio := buf.frames.flatten
    if allAudio.isEmpty then none
    else
      let bpms : ℚ := (sample_rate * 2 : Nat) / 1000
      let startByte : Nat := (maxI 0 (pyInt (startMs * bpms))).toNat
      let endMs : ℚ :=
        match buf.speech_end_ms with
        | some e => if e = 0 then buf.total_duration_ms else e
        | none => buf.total_duration_ms
      let endByte : Nat := (pyInt (endMs * bpms)).toNat
      some ((allAudio.take endByte).drop startByte)

/-- `VADProcessor._trim_buffer`: keep only the last `keep_ms`
milliseconds worth of bytes (Python `all_audio[-keep_bytes:]`, which is
the whole list when `keep_bytes = 0`). -/
def trim_buffer (cfg : VADConfig) (keep_ms : ℚ) (buf : AudioBuffer) : AudioBuffer :=
  if buf.frames.isEmpty then buf
  else
    let bpms : ℚ := (cfg.sample_rate * 2 : Nat) / 1000
    let keepBytes : Nat := (pyInt (keep_ms * bpms)).toNat
    let allAudio := buf.frames.flatten
    if allAudio.length > keepBytes then
      let trimmed :=
        if keepBytes = 0 then allAudio
        else allAudio.drop (allAudio.length - keepBytes)
      {buf with frames := [trimmed], total_duration_ms := keep_ms}
    else buf

/-- The processor's mutable state (`_state`, `_buffer`,
`_silence_frames`, `_speech_frames`). -/
structure VADState where
  state : SpeechState := SpeechState.silence
  buffer : AudioBuffer := {}
  silence_frames : Nat := 0
  speech_frames : Nat := 0
deriving DecidableEq

/-- `VADProcessor.reset` / the freshly constructed processor state. -/
def resetVAD : VADState :=
  { state := SpeechState.silence, buffer := {}, silence_frames := 0, speech_frames := 0 }

/-- `VADResult` (`vad_processor.py`). -/
structure VADResult where
  is_speech_complete : Bool := false
  audio_data : Option Bytes := none
  state : SpeechState := SpeechState.silence
  is_speaking : Bool := false
  speech_duration_ms : ℚ := 0
deriving DecidableEq

/-- `VADProcessor._update_state`: the four-phase transition table, the
SILENCE-phase buffer trimming, and the SPEECH_COMPLETE handling that
always resets to SILENCE before returning (note that the returned
result reads `self._state` and `self._speech_frames` after the reset). -/
def update_state (cfg : VADConfig) (st : VADState) (is_speech : Bool)
    (frame_data : Bytes) (frame_duration_ms : ℚ) : VADState × VADResult :=
  let buf0 := addFrame st.buffer frame_data frame_duration_ms
  let st1 : VADState :=
    match st.state with
    | SpeechState.silence =>
      if is_speech then
        { state := SpeechState.speaking
          buffer := {buf0 with
            speech_start_ms :=
              some (maxQ 0 (buf0.total_duration_ms - frame_duration_ms - cfg.speech_pad_ms))}
          speech_frames := 1
          silence_frames := 0 }
      else
        {st with buffer := if buf0.total_duration_ms > 5000 then trim_buffer cfg 500 buf0 else buf0}
    | SpeechState.speaking =>
      if is_speech then
        {st with
          buffer := buf0
          speech_frames := st.speech_frames + 1
          silence_frames := 0}
      else
        let sf := st.silence_frames + 1
        if sf ≥ silence_frame_threshold cfg then
          {st with
            state := SpeechState.speechComplete
            buffer := {buf0 with
              speech_end_ms :=
                some (buf0.total_duration_ms - sf * frame_duration_ms + cfg.speech_pad_ms)}
            silence_frames := sf}
        else
          {st with buffer := buf0, silence_frames := sf}
    | SpeechState.pause =>
      if is_speech then
        {st with
          state := SpeechState.speaking
          buffer := buf0
          speech_frames := st.speech_frames + 1
          silence_frames := 0}
      else
        let sf := st.silence_frames + 1
        if sf ≥ silence_frame_threshold cfg then
          {st with
            state := SpeechState.speechComplete
            buffer := {buf0 with
              speech_end_ms :=
                some (buf0.total_duration_ms - sf * frame_duration_ms + cfg.speech_pad_ms)}
            silence_frames := sf}
        else
          {st with buffer := buf0, silence_frames := sf}
    | SpeechState.speechComplete =>
      {st with buffer := buf0}
  if st1.state = SpeechState.speechComplete then
    let done := st1.speech_frames ≥ min_speech_frames cfg
    let audio := if done then get_speech_segment cfg.sample_rate st1.buffer else none
    (resetVAD,
      { is_speech_complete := done
        audio_data := audio
        state := SpeechState.silence
        is_speaking := is_speech
        speech_duration_ms := 0 })
  else
    (st1,
      { is_speech_complete := false
        audio_data := none
        state := st1.state
        is_speaking := is_speech
        speech_duration_ms := st1.speech_frames * (cfg.frame_duration_ms : ℚ) })

/-- `VADProcessor.process_frame` with the per-frame classifier verdict
(`_detect_speech`, an external/stochastic component) supplied as the
boolean `is_speech`: frame duration is derived from the byte length
(16-bit audio). -/
def process_frame (cfg : VADConfig) (st : VADState) (is_speech : Bool)
    (frame_data : Bytes) : VADState × VADResult :=
  let frame_samples : Nat := frame_data.length / 2
  let d : ℚ := (frame_samples : ℚ) / (cfg.sample_rate : ℚ) * 1000
  update_state cfg st is_speech frame_data d

/-- Feed a list of (classifier verdict, frame bytes) pairs through
`process_frame`, collecting every returned result. -/
def runVAD (cfg : VADConfig) (st : VADState) :
    List (Bool × Bytes) → VADState × List VADResult
  | [] => (st, [])
  | (isSp, data) :: rest =>
    let (st1, r) := process_frame cfg st isSp data
    let (st2, rs) := runVAD cfg st1 rest
    (st2, r :: rs)

/-! ### Supporting lemmas: string scanning -/

theorem strStartsWith_append (pre s : Str) : strStartsWith pre (pre ++ s) = true := by
  induction pre with
  | nil => rfl
  | cons p ps ih => simp [strStartsWith, ih]

theorem strStartsWith_eq_append {pre s : Str} (h : strStartsWith pre s = true) :
    s = pre ++ s.drop pre.length := by
  induction pre generalizing s with
  | nil => simp
  | cons p ps ih =>
    cases s with
    | nil => simp [strStartsWith] at h
    | cons c cs =>
      simp only [strStartsWith, Bool.and_eq_true, beq_iff_eq] at h
      obtain ⟨rfl, h2⟩ := h
      simpa using ih h2

theorem splitOnce_eq {sep s l r : Str} (h : splitOnce sep s = some (l, r)) :
    s = l ++ sep ++ r := by
  induction s generalizing l r with
  | nil =>
    unfold splitOnce at h
    by_cases hse : sep.isEmpty
    · rw [if_pos hse] at h
      obtain ⟨rfl, rfl⟩ : l = [] ∧ r = [] := by simpa using h.symm
      simp [List.isEmpty_iff.mp hse]
    · rw [if_neg hse] at h; exact absurd h (by simp)
  | cons c cs ih =>
    unfold splitOnce at h
    by_cases hp : strStartsWith sep (c :: cs) = true
    · rw [if_pos hp] at h
      obtain ⟨rfl, rfl⟩ : l = [] ∧ r = (c :: cs).drop sep.length := by simpa using h.symm
      simpa using strStartsWith_eq_append hp
    · rw [if_neg hp] at h
      cases hs : splitOnce sep cs with
      | none => rw [hs] at h; exact absurd h (by simp)
      | some pr =>
        obtain ⟨l', r'⟩ := pr
        rw [hs] at h
        obtain ⟨rfl, rfl⟩ : l = c :: l' ∧ r = r' := by simpa using h.symm
        simpa using ih hs

theorem splitOnce_isSome_append (sep l r : Str) :
    (splitOnce sep (l ++ sep ++ r)).isSome = true := by
  induction l with
  | nil =>
    cases hsep : sep with
    | nil =>
      cases r with
      | nil => simp [splitOnce]
      | cons c cs => simp [splitOnce, strStartsWith]
    | cons x xs =>
      have hpre : strStartsWith (x :: xs) ((x :: xs) ++ r) = true := strStartsWith_append _ _
      simp only [List.nil_append, List.cons_append] at hpre ⊢
      simp [splitOnce, hpre]
  | cons a l ih =>
    simp only [List.cons_append]
    unfold splitOnce
    by_cases hp : strStartsWith sep (a :: (l ++ sep ++ r)) = true
    · rw [if_pos hp]; rfl
    · rw [if_neg hp]
      cases hs : splitOnce sep (l ++ sep ++ r) with
      | none => rw [hs] at ih; exact absurd ih (by simp)
      | some pr => obtain ⟨l', r'⟩ := pr; rfl

theorem drop_length_takeWhile (p : Char → Bool) :
    ∀ t : Str, t.drop (t.takeWhile p).length = t.dropWhile p := by
  intro t
  induction t with
  | nil => rfl
  | cons c t ih =>
    by_cases h : p c = true
    · simpa [List.takeWhile_cons, List.dropWhile_cons, h] using ih
    · simp [List.takeWhile_cons, List.dropWhile_cons, h]

theorem tryPlaceholder_sound {s body rem : Str}
    (h : tryPlaceholder s = some (body, rem)) :
    s = braceL :: braceL :: (body ++ braceR :: braceR :: rem) := by
  cases s with
  | nil => exact absurd h (by simp [tryPlaceholder])
  | cons c1 s1 =>
    cases s1 with
    | nil => exact absurd h (by simp [tryPlaceholder])
    | cons c2 t =>
      simp only [tryPlaceholder] at h
      by_cases h12 : (c1 == braceL && c2 == braceL) = true
      · obtain ⟨rfl, rfl⟩ : c1 = braceL ∧ c2 = braceL := by simpa using h12
        rw [if_pos h12] at h
        by_cases hbe : (t.takeWhile (fun c => c != braceR)).isEmpty = true
        · rw [if_pos hbe] at h; exact absurd h (by simp)
        · rw [if_neg hbe] at h
          rw [drop_length_takeWhile] at h
          cases hdw : t.dropWhile (fun c => c != braceR) with
          | nil => rw [hdw] at h; exact absurd h (by simp)
          | cons d1 t2 =>
            cases t2 with
            | nil => rw [hdw] at h; exact absurd h (by simp)
            | cons d2 r =>
              rw [hdw] at h
              have h2 : (if (d1 == braceR && d2 == braceR) = true
                  then some (t.takeWhile (fun c => c != braceR), r) else none) =
                  some (body, rem) := h
              by_cases hdd : (d1 == braceR && d2 == braceR) = true
              · obtain ⟨rfl, rfl⟩ : d1 = braceR ∧ d2 = braceR := by simpa using hdd
                rw [if_pos hdd] at h2
                obtain ⟨rfl, rfl⟩ : t.takeWhile (fun c => c != braceR) = body ∧ r = rem := by
                  simpa using h2
                have ht : t.takeWhile (fun c => c != braceR) ++
                    t.dropWhile (fun c => c != braceR) = t :=
                  List.takeWhile_append_dropWhile _ _
                rw [hdw] at ht
                exact congrArg (fun l => braceL :: braceL :: l) ht.symm
              · rw [if_neg hdd] at h2; exact absurd h2 (by simp)
      · rw [if_neg h12] at h; exact absurd h (by simp)

theorem reSubFuel_id (resolve : Str → Option Str) :
    ∀ (fuel : Nat) (s : Str),
      (∀ body ∈ placeholdersFuel fuel s, resolve body = none) →
      reSubFuel resolve fuel s = s := by
  intro fuel
  induction fuel with
  | zero => intro s _; rfl
  | succ n ih =>
    intro s hres
    cases s with
    | nil => rfl
    | cons c cs =>
      cases htp : tryPlaceholder (c :: cs) with
      | none =>
        simp only [reSubFuel, placeholdersFuel, htp] at hres ⊢
        exact congrArg (c :: ·) (ih cs hres)
      | some pr =>
        obtain ⟨body, rem⟩ := pr
        have hs := tryPlaceholder_sound htp
        have hbody : resolve body = none := by
          apply hres
          simp [placeholdersFuel, htp]
        have hrem : ∀ b ∈ placeholdersFuel n rem, resolve b = none := by
          intro b hb
          apply hres
          simp only [placeholdersFuel, htp]
          exact List.mem_cons_of_mem _ hb
        simp only [reSubFuel, htp, hbody]
        rw [ih rem hrem, hs]
        simp

theorem chooseOp_ne_notContains (s : Str) (out : CmpOp × Str × Str)
    (h : chooseOp s = some out) : out.1 ≠ CmpOp.notContainsOp := by
  intro hop
  simp only [chooseOp, comparison_ops, chooseOpAux] at h
  cases h1 : splitOnce (str ">=") s with
  | some pr => rw [h1] at h; obtain ⟨rfl⟩ : (CmpOp.ge, pr.1, pr.2) = out := by simpa using h
               simp at hop
  | none =>
  rw [h1] at h
  cases h2 : splitOnce (str "<=") s with
  | some pr => rw [h2] at h; obtain ⟨rfl⟩ : (CmpOp.le, pr.1, pr.2) = out := by simpa using h
               simp at hop
  | none =>
  rw [h2] at h
  cases h3 : splitOnce (str ">>") s with
  | some pr => rw [h3] at h; obtain ⟨rfl⟩ : (CmpOp.gt, pr.1, pr.2) = out := by simpa using h
               simp at hop
  | none =>
  rw [h3] at h
  cases h4 : splitOnce (str "<<") s with
  | some pr => rw [h4] at h; obtain ⟨rfl⟩ : (CmpOp.lt, pr.1, pr.2) = out := by simpa using h
               simp at hop
  | none =>
  rw [h4] at h
  cases h5 : splitOnce (str "!=") s with
  | some pr => rw [h5] at h; obtain ⟨rfl⟩ : (CmpOp.ne, pr.1, pr.2) = out := by simpa using h
               simp at hop
  | none =>
  rw [h5] at h
  cases h6 : splitOnce (str "==") s with
  | some pr => rw [h6] at h; obtain ⟨rfl⟩ : (CmpOp.eq, pr.1, pr.2) = out := by simpa using h
               simp at hop
  | none =>
  rw [h6] at h
  cases h7 : splitOnce (str "CONTAINS") s with
  | some pr => rw [h7] at h; obtain ⟨rfl⟩ : (CmpOp.containsOp, pr.1, pr.2) = out := by simpa using h
               simp at hop
  | none =>
  rw [h7] at h
  cases h8 : splitOnce (str "NOT CONTAINS") s with
  | none => rw [h8] at h; exact absurd h (by simp)
  | some pr =>
    obtain ⟨l, r⟩ := pr
    have hs := splitOnce_eq h8
    have hsplit : s = (l ++ str "NOT ") ++ str "CONTAINS" ++ r := by
      rw [hs]
      have : str "NOT CONTAINS" = str "NOT " ++ str "CONTAINS" := by decide
      rw [this]
      simp [List.append_assoc]
    have hc : (splitOnce (str "CONTAINS") s).isSome = true := by
      rw [hsplit]
      exact splitOnce_isSome_append _ _ _
    rw [h7] at hc
    exact absurd hc (by simp)

/-! ### Claim theorems: variable store and equation language -/

/-- C4: the equation evaluator satisfies the four spec examples:
`evaluate_equation("{{a}} >> 18")` on `{a: 20}` is true;
`evaluate_equation("{{a}} >> 18 AND {{b}} == 'x'")` on `{a: 20, b: "y"}`
is false; `evaluate_equation("{{n}} exists")` on the empty store is
false; and the empty equation is true on every store. -/
theorem evaluate_equation_spec_examples :
    evaluate_equation [(str "a", Value.vInt 20)] (str "\x7b\x7ba\x7d\x7d >> 18") = true ∧
    evaluate_equation [(str "a", Value.vInt 20), (str "b", Value.vStr (str "y"))]
      (str "\x7b\x7ba\x7d\x7d >> 18 AND \x7b\x7bb\x7d\x7d == \x27x\x27") = false ∧
    evaluate_equation [] (str "\x7b\x7bn\x7d\x7d exists") = false ∧
    (∀ store : Store, evaluate_equation store (str "") = true) :=
  ⟨by decide, by decide, by decide, fun _ => rfl⟩

/-- C8: `interpolate` is total, and on every template none of whose
placeholders resolves (each `{{name}}` body, stripped, is absent or
`None` in the store) it returns the template verbatim; consequently it
is idempotent on such templates. -/
theorem interpolate_unresolved_identity (store : Store) (template : Str)
    (h : ∀ body ∈ placeholders template, storeGetNonNull store (pyStrip body) = none) :
    interpolate store template = template ∧
    interpolate store (interpolate store template) = interpolate store template := by
  have hid : interpolate store template = template := by
    unfold interpolate
    by_cases he : template.isEmpty
    · rw [if_pos he]
    · rw [if_neg he]
      apply reSubFuel_id
      intro body hb
      have hnone := h body hb
      rw [hnone]
  refine ⟨hid, ?_⟩
  rw [hid]
  exact hid

/-- Witness for C8 at the spec's own example: `"Hi {{x}}"` on the empty
store. -/
theorem interpolate_unresolved_identity_witness :
    (∀ body ∈ placeholders (str "Hi \x7b\x7bx\x7d\x7d"),
      storeGetNonNull [] (pyStrip body) = none) ∧
    interpolate [] (str "Hi \x7b\x7bx\x7d\x7d") = str "Hi \x7b\x7bx\x7d\x7d" :=
  ⟨by decide, (interpolate_unresolved_identity [] (str "Hi \x7b\x7bx\x7d\x7d") (by decide)).1⟩

/-- C10: in the operator scan of `evaluate_equation`, `CONTAINS` is
checked before `NOT CONTAINS` and is a substring of it, so the
not-contains operator function is never selected for any interpolated
equation; concretely, `"A NOT CONTAINS B"` splits at `CONTAINS` into
left operand `"A NOT"` and right operand `"B"` and is evaluated as that
containment test (which is false), not as the negation of B-in-A
(which would be true). -/
theorem not_contains_operator_unreachable :
    (∀ (s : Str) (out : CmpOp × Str × Str),
      chooseOp s = some out → out.1 ≠ CmpOp.notContainsOp) ∧
    chooseOp (str "A NOT CONTAINS B") =
      some (CmpOp.containsOp, str "A NOT ", str " B") ∧
    evalEqAtom [] (str "A NOT CONTAINS B") =
      contains_fn (Value.vStr (str "A NOT")) (Value.vStr (str "B")) ∧
    evaluate_equation [] (str "A NOT CONTAINS B") = false ∧
    not_contains_fn (Value.vStr (str "A NOT")) (Value.vStr (str "B")) = true :=
  ⟨chooseOp_ne_notContains, by decide, by decide, by decide, by decide⟩

/-- Witness for C10: the general no-selection statement applied at a
concrete scan. -/
theorem not_contains_operator_unreachable_witness :
    chooseOp (str "A NOT CONTAINS B") =
      some (CmpOp.containsOp, str "A NOT ", str " B") ∧
    (CmpOp.containsOp, str "A NOT ", str " B").1 ≠ CmpOp.notContainsOp :=
  ⟨by decide,
    (not_contains_operator_unreachable).1 (str "A NOT CONTAINS B") _ (by decide)⟩

/-! ### Claim theorems: flow validation -/

/-- The validity condition claimed by the spec sentence behind C5:
start-node id present and known, and every edge target known — and
nothing else. -/
def claimedValidOnly (flow : FlowDefinition) : Bool :=
  !flow.start_node_id.isEmpty && nodeIdKnown flow flow.start_node_id &&
  flow.nodes.all (fun p => p.2.edges.all (fun e => nodeIdKnown flow e.target_node_id))

/-- The additional condition `validate` actually enforces: a configured
(truthy) fallback-node id must name an existing node. -/
def fallbackOk (flow : FlowDefinition) : Bool :=
  if optTruthy flow.global_settings.fallback_node_id then
    nodeIdKnown flow (flow.global_settings.fallback_node_id.getD [])
  else true

/-- A flow whose start node and (absent) edge targets are all fine but
whose configured fallback-node id names no node. -/
def flowFallbackGhost : FlowDefinition :=
  { id := str "f", start_node_id := str "a",
    global_settings := { fallback_node_id := some (str "b") },
    nodes := [(str "a", { id := str "a", kind := NodeKind.logicSplit })] }

/-- C5 counterexample: `validate` also checks the configured
fallback-node id, so a flow satisfying exactly the claimed conditions
can still fail validation. -/
theorem validate_ignores_fallback_counterexample :
    claimedValidOnly flowFallbackGhost = true ∧ validate flowFallbackGhost ≠ [] := by
  decide

/-- C5 (amended): `validate` returns an empty error list iff the
start-node id is present and names a node, every edge target names a
node, and the configured fallback-node id — when set and nonempty —
names a node. -/
theorem validate_empty_iff (flow : FlowDefinition) :
    validate flow = [] ↔ (claimedValidOnly flow && fallbackOk flow) = true := by
  unfold validate claimedValidOnly fallbackOk
  rw [List.append_eq_nil, List.append_eq_nil]
  simp only [Bool.and_eq_true, Bool.not_eq_true']
  constructor
  · rintro ⟨⟨hstart, hedges⟩, hfb⟩
    refine ⟨⟨⟨?_, ?_⟩, ?_⟩, ?_⟩
    · by_cases he : flow.start_node_id.isEmpty
      · rw [if_pos he] at hstart; exact absurd hstart (by simp)
      · simpa using he
    · by_cases he : flow.start_node_id.isEmpty = true
      · rw [if_pos he] at hstart; exact absurd hstart (by simp)
      · rw [if_neg he] at hstart
        by_cases hk : nodeIdKnown flow flow.start_node_id = true
        · exact hk
        · rw [if_neg hk] at hstart; exact absurd hstart (by simp)
    · rw [List.flatMap_eq_nil_iff] at hedges
      simp only [List.all_eq_true]
      intro p hp e he
      have hfm := hedges p hp
      rw [List.filterMap_eq_nil_iff] at hfm
      have h2 := hfm e he
      by_cases hk : nodeIdKnown flow e.target_node_id = true
      · exact hk
      · rw [if_neg hk] at h2; exact absurd h2 (by simp)
    · by_cases ht : optTruthy flow.global_settings.fallback_node_id = true
      · rw [if_pos ht] at hfb ⊢
        by_cases hk : nodeIdKnown flow (flow.global_settings.fallback_node_id.getD []) = true
        · exact hk
        · rw [if_neg hk] at hfb; exact absurd hfb (by simp)
      · rw [if_neg ht]
  · rintro ⟨⟨⟨hne, hknown⟩, hedges⟩, hfb⟩
    refine ⟨⟨?_, ?_⟩, ?_⟩
    · rw [if_neg (by simp [hne]), if_pos hknown]
    · rw [List.flatMap_eq_nil_iff]
      intro p hp
      rw [List.filterMap_eq_nil_iff]
      intro e he
      simp only [List.all_eq_true] at hedges
      rw [if_pos (hedges p hp e he)]
    · by_cases ht : optTruthy flow.global_settings.fallback_node_id = true
      · rw [if_pos ht] at hfb ⊢
        rw [if_pos hfb]
      · rw [if_neg ht]

/-! ### Claim theorems: engine retry / fallback policy -/

/-- The trivial oracle: every capability call raises / is absent. -/
def oracle0 : Oracle :=
  { generate := fun _ _ => none, functions := fun _ => none, extractMulti := fun _ _ => none }

/-- A one-node flow with no fallback node configured. -/
def flowNoFallback : FlowDefinition :=
  { id := str "f", start_node_id := str "a",
    global_settings := { max_retries := 3, fallback_node_id := none },
    nodes := [(str "a", { id := str "a", kind := NodeKind.logicSplit })] }

/-- A two-node flow with a fallback node and a retry budget of 2. -/
def flowWithFallback : FlowDefinition :=
  { id := str "f", start_node_id := str "a",
    global_settings := { max_retries := 2, fallback_node_id := some (str "fb") },
    nodes := [(str "a", { id := str "a", kind := NodeKind.logicSplit }),
              (str "fb", { id := str "fb", kind := NodeKind.logicSplit })] }

/-- A fresh session state at node `a`. -/
def freshState : FlowState :=
  { flow_id := str "f", session_id := str "s", current_node_id := str "a", varStore := [] }

/-- An error-kind node result (as the executor produces them: no
next-node id). -/
def errorResult : NodeResult := { result_type := NodeResultType.error }

/-- Apply `_handle_node_result`'s state update `k` times with the same
result. -/
def iterateApply (flow : FlowDefinition) (res : NodeResult) :
    Nat → FlowState → FlowState
  | 0, st => st
  | k + 1, st => iterateApply flow res k (applyResult flow st res)

/-- C1 counterexample: with no fallback node configured, four
consecutive error results on a budget of three do NOT terminate the
session — the claimed `is_complete = true` with reason `max_retries`
is false (the session state is in fact left completely unchanged). -/
theorem no_fallback_retry_exhaustion_counterexample :
    ¬((iterateApply flowNoFallback errorResult 4 freshState).is_complete = true ∧
      (iterateApply flowNoFallback errorResult 4 freshState).end_reason =
        some (Value.vStr (str "max_retries"))) ∧
    iterateApply flowNoFallback errorResult 4 freshState = freshState := by
  decide

@[simp] theorem optTruthy_none : optTruthy none = false := rfl

@[simp] theorem recordAgentResponse_flow_id (st : FlowState) (res : NodeResult) :
    (recordAgentResponse st res).flow_id = st.flow_id := by
  unfold recordAgentResponse add_turn; split <;> rfl

@[simp] theorem recordAgentResponse_session_id (st : FlowState) (res : NodeResult) :
    (recordAgentResponse st res).session_id = st.session_id := by
  unfold recordAgentResponse add_turn; split <;> rfl

@[simp] theorem recordAgentResponse_current_node_id (st : FlowState) (res : NodeResult) :
    (recordAgentResponse st res).current_node_id = st.current_node_id := by
  unfold recordAgentResponse add_turn; split <;> rfl

@[simp] theorem recordAgentResponse_varStore (st : FlowState) (res : NodeResult) :
    (recordAgentResponse st res).varStore = st.varStore := by
  unfold recordAgentResponse add_turn; split <;> rfl

@[simp] theorem recordAgentResponse_retry_count (st : FlowState) (res : NodeResult) :
    (recordAgentResponse st res).retry_count = st.retry_count := by
  unfold recordAgentResponse add_turn; split <;> rfl

@[simp] theorem recordAgentResponse_is_complete (st : FlowState) (res : NodeResult) :
    (recordAgentResponse st res).is_complete = st.is_complete := by
  unfold recordAgentResponse add_turn; split <;> rfl

@[simp] theorem recordAgentResponse_end_reason (st : FlowState) (res : NodeResult) :
    (recordAgentResponse st res).end_reason = st.end_reason := by
  unfold recordAgentResponse add_turn; split <;> rfl

/-- Behavior of `_handle_node_result` on an error result within the
retry budget, when a fallback node is configured. -/
theorem applyResult_error_fallback_within (flow : FlowDefinition) (st : FlowState)
    (res : NodeResult) (hrt : res.result_type = NodeResultType.error)
    (hnext : res.next_node_id = none)
    (hfb : optTruthy flow.global_settings.fallback_node_id = true)
    (hle : st.retry_count + 1 ≤ flow.global_settings.max_retries) :
    applyResult flow st res =
      {recordAgentResponse st res with
        retry_count := st.retry_count + 1
        current_node_id := flow.global_settings.fallback_node_id.getD []} := by
  simp only [applyResult, afterResultType, hrt, hnext, optTruthy_none, Bool.false_and,
    Bool.false_eq_true, if_false]
  rw [if_pos hfb]
  simp only [recordAgentResponse_retry_count]
  rw [if_pos hle]

/-- Behavior of `_handle_node_result` on an error result exceeding the
retry budget, when a fallback node is configured. -/
theorem applyResult_error_fallback_exceeded (flow : FlowDefinition) (st : FlowState)
    (res : NodeResult) (hrt : res.result_type = NodeResultType.error)
    (hnext : res.next_node_id = none)
    (hfb : optTruthy flow.global_settings.fallback_node_id = true)
    (hlt : flow.global_settings.max_retries < st.retry_count + 1) :
    applyResult flow st res =
      {recordAgentResponse st res with
        retry_count := st.retry_count + 1
        is_complete := true
        end_reason := some (Value.vStr (str "max_retries"))} := by
  simp only [applyResult, afterResultType, hrt, hnext, optTruthy_none, Bool.false_and,
    Bool.false_eq_true, if_false]
  rw [if_pos hfb]
  simp only [recordAgentResponse_retry_count]
  rw [if_neg (by omega)]

/-- Behavior of `_handle_node_result` on an error result when no
fallback node is configured: no retry tracking, no termination. -/
theorem applyResult_error_no_fallback (flow : FlowDefinition) (st : FlowState)
    (res : NodeResult) (hrt : res.result_type = NodeResultType.error)
    (hnext : res.next_node_id = none)
    (hfb : optTruthy flow.global_settings.fallback_node_id = false) :
    applyResult flow st res = recordAgentResponse st res := by
  simp only [applyResult, afterResultType, hrt, hnext, optTruthy_none, Bool.false_and,
    Bool.false_eq_true, if_false, hfb]

/-- C1 (amended): error-kind results are retry-tracked only when a
fallback node id is configured.  With a fallback: while the incremented
retry counter stays within `max_retries` the engine forces a transition
to the fallback node; once it exceeds `max_retries` the session
terminates with `is_complete = true` and end reason `max_retries`.
With no fallback configured an error result leaves the session state
unchanged (beyond response recording) — in particular the session never
terminates with `max_retries`. -/
theorem error_retry_fallback_policy :
    (∀ (flow : FlowDefinition) (st : FlowState) (res : NodeResult),
      res.result_type = NodeResultType.error → res.next_node_id = none →
      optTruthy flow.global_settings.fallback_node_id = true →
      st.retry_count + 1 ≤ flow.global_settings.max_retries →
      applyResult flow st res =
        {recordAgentResponse st res with
          retry_count := st.retry_count + 1
          current_node_id := flow.global_settings.fallback_node_id.getD []}) ∧
    (∀ (flow : FlowDefinition) (st : FlowState) (res : NodeResult),
      res.result_type = NodeResultType.error → res.next_node_id = none →
      optTruthy flow.global_settings.fallback_node_id = true →
      flow.global_settings.max_retries < st.retry_count + 1 →
      applyResult flow st res =
        {recordAgentResponse st res with
          retry_count := st.retry_count + 1
          is_complete := true
          end_reason := some (Value.vStr (str "max_retries"))}) ∧
    (∀ (flow : FlowDefinition) (st : FlowState) (res : NodeResult),
      res.result_type = NodeResultType.error → res.next_node_id = none →
      optTruthy flow.global_settings.fallback_node_id = false →
      applyResult flow st res = recordAgentResponse st res) :=
  ⟨applyResult_error_fallback_within, applyResult_error_fallback_exceeded,
    applyResult_error_no_fallback⟩

/-- Witness for C1 (amended), first branch: on the concrete
two-node flow with fallback `fb` and budget 2, one error from a fresh
session moves the session to the fallback node with retry counter 1. -/
theorem error_retry_fallback_policy_witness :
    errorResult.result_type = NodeResultType.error ∧
    optTruthy flowWithFallback.global_settings.fallback_node_id = true ∧
    freshState.retry_count + 1 ≤ flowWithFallback.global_settings.max_retries ∧
    applyResult flowWithFallback freshState errorResult =
      {recordAgentResponse freshState errorResult with
        retry_count := freshState.retry_count + 1
        current_node_id := flowWithFallback.global_settings.fallback_node_id.getD []} :=
  ⟨rfl, by decide, by decide,
    error_retry_fallback_policy.1 flowWithFallback freshState errorResult rfl rfl
      (by decide) (by decide)⟩

/-- Iterating error results within the retry budget: the counter climbs
by one per error, the session stays incomplete, and from the first
error on the current node is the fallback node. -/
theorem iterateApply_error_invariant (flow : FlowDefinition) (res : NodeResult)
    (hrt : res.result_type = NodeResultType.error) (hnext : res.next_node_id = none)
    (hfb : optTruthy flow.global_settings.fallback_node_id = true) :
    ∀ (k : Nat) (st : FlowState), st.is_complete = false →
      st.retry_count + k ≤ flow.global_settings.max_retries →
      (iterateApply flow res k st).retry_count = st.retry_count + k ∧
      (iterateApply flow res k st).is_complete = false ∧
      (1 ≤ k → (iterateApply flow res k st).current_node_id =
        flow.global_settings.fallback_node_id.getD []) := by
  intro k
  induction k with
  | zero =>
    intro st h1 _
    exact ⟨rfl, h1, by omega⟩
  | succ n ih =>
    intro st h1 h2
    have hstep := applyResult_error_fallback_within flow st res hrt hnext hfb (by omega)
    have hre : (applyResult flow st res).retry_count = st.retry_count + 1 := by
      rw [hstep]
    have hco : (applyResult flow st res).is_complete = false := by
      rw [hstep]; simpa using h1
    have hcur : (applyResult flow st res).current_node_id =
        flow.global_settings.fallback_node_id.getD [] := by
      rw [hstep]
    have hih := ih (applyResult flow st res) hco (by omega)
    rw [hre] at hih
    obtain ⟨hihr, hihc, hihcur⟩ := hih
    refine ⟨?_, hihc, ?_⟩
    · show (iterateApply flow res n (applyResult flow st res)).retry_count = _
      omega
    · intro _
      show (iterateApply flow res n (applyResult flow st res)).current_node_id = _
      cases n with
      | zero => simpa [iterateApply] using hcur
      | succ m => exact hihcur (by omega)

/-- A result carrying a truthy next-node id that leaves the session
incomplete performs the transition: retry counter reset to 0, current
node set to the target. -/
theorem applyResult_transition (flow : FlowDefinition) (st : FlowState) (res : NodeResult)
    (nid : Str) (hnext : res.next_node_id = some nid) (hne : ¬nid.isEmpty = true)
    (hco : (applyResult flow st res).is_complete = false) :
    (applyResult flow st res).retry_count = 0 ∧
    (applyResult flow st res).current_node_id = nid := by
  simp only [applyResult, hnext] at hco ⊢
  by_cases hA : (afterResultType flow (recordAgentResponse st res) res).is_complete = true
  · rw [if_neg (by simp [hA])] at hco
    exact absurd hco (by simp [hA])
  · have hA' : (afterResultType flow (recordAgentResponse st res) res).is_complete = false :=
      by simpa using hA
    have hcond : (optTruthy (some nid) &&
        !(afterResultType flow (recordAgentResponse st res) res).is_complete) = true := by
      simp [optTruthy, hA']
      simpa using hne
    rw [if_pos hcond]
    exact ⟨rfl, rfl⟩

/-- C7: with a configured fallback node, `k` consecutive error-kind
results (1 ≤ k ≤ max_retries) from a fresh incomplete session leave the
session at the fallback node with retry counter `k` and the session
still running; and any successful transition (a result carrying a
truthy next-node id, applied such that the session does not complete)
resets the retry counter to 0 immediately. -/
theorem fallback_after_retries_and_retry_reset :
    (∀ (flow : FlowDefinition) (st : FlowState) (res : NodeResult) (k : Nat),
      res.result_type = NodeResultType.error → res.next_node_id = none →
      optTruthy flow.global_settings.fallback_node_id = true →
      st.retry_count = 0 → st.is_complete = false →
      1 ≤ k → k ≤ flow.global_settings.max_retries →
      (iterateApply flow res k st).current_node_id =
        flow.global_settings.fallback_node_id.getD [] ∧
      (iterateApply flow res k st).retry_count = k ∧
      (iterateApply flow res k st).is_complete = false) ∧
    (∀ (flow : FlowDefinition) (st : FlowState) (res : NodeResult) (nid : Str),
      res.next_node_id = some nid → ¬nid.isEmpty = true →
      (applyResult flow st res).is_complete = false →
      (applyResult flow st res).retry_count = 0 ∧
      (applyResult flow st res).current_node_id = nid) := by
  constructor
  · intro flow st res k hrt hnext hfb hr0 hco hk1 hkmax
    have h := iterateApply_error_invariant flow res hrt hnext hfb k st hco (by omega)
    rw [hr0] at h
    obtain ⟨h1, h2, h3⟩ := h
    exact ⟨h3 hk1, by simpa using h1, h2⟩
  · exact applyResult_transition

/-- Witness for C7 at the concrete two-error run on the fallback flow
(budget 2): the session sits at the fallback node with retry counter 2
and is not complete. -/
theorem fallback_after_retries_and_retry_reset_witness :
    (iterateApply flowWithFallback errorResult 2 freshState).current_node_id = str "fb" ∧
    (iterateApply flowWithFallback errorResult 2 freshState).retry_count = 2 ∧
    (iterateApply flowWithFallback errorResult 2 freshState).is_complete = false := by
  have h := fallback_after_retries_and_retry_reset.1 flowWithFallback freshState errorResult 2
    rfl rfl (by decide) rfl rfl (by decide) (by decide)
  simpa using h

/-! ### Claim theorems: zero-wait auto-continuation -/

/-- A default edge to target `t`. -/
def edgeDefaultTo (i t : Str) : Edge :=
  { id := i, target_node_id := t, is_default := true }

/-- A logic-split node with a single outgoing edge. -/
def logicSplitNode (i : Str) (e : Edge) : Node :=
  { id := i, edges := [e], kind := NodeKind.logicSplit }

/-- The cyclic misconfiguration: two logic-split nodes whose default
edges point at each other. -/
def flowCyclic : FlowDefinition :=
  { id := str "f", start_node_id := str "a",
    nodes := [(str "a", logicSplitNode (str "a") (edgeDefaultTo (str "ea") (str "b"))),
              (str "b", logicSplitNode (str "b") (edgeDefaultTo (str "eb") (str "a")))] }

/-- A zero-wait continuation result into node `t` (as the executor
produces for a logic-split node whose default edge targets `t`). -/
def resContinueTo (t : Str) : NodeResult :=
  { result_type := NodeResultType.continueNext, next_node_id := some t,
    should_wait_for_input := false }

/-- On the cyclic all-default flow, `_handle_node_result` never returns
no matter how much recursion depth it is allowed. -/
theorem cyclic_handle_diverges :
    ∀ (n : Nat) (st : FlowState), st.is_complete = false →
      handleNodeResultFuel flowCyclic oracle0 n st (resContinueTo (str "b")) = none ∧
      handleNodeResultFuel flowCyclic oracle0 n st (resContinueTo (str "a")) = none := by
  intro n
  induction n with
  | zero => intro st _; exact ⟨rfl, rfl⟩
  | succ m ih =>
    rintro ⟨fid, sid, cur, vars, hist, rc, hc, er⟩ h
    have hfalse : hc = false := h
    subst hfalse
    exact ⟨(ih _ rfl).2, (ih _ rfl).1⟩

/-- C6 counterexample: the cyclic flow of all-default edges defeats
every recursion bound — the turn never returns, so no iteration cap
exists in the engine. -/
theorem auto_continuation_cap_counterexample :
    ¬∃ n : Nat,
      (handleNodeResultFuel flowCyclic oracle0 n freshState
        (resContinueTo (str "b"))).isSome = true := by
  rintro ⟨n, hn⟩
  rw [(cyclic_handle_diverges n freshState rfl).1] at hn
  exact absurd hn (by simp)

/-- C6 (amended): a node result with a truthy next-node id and
`should_wait_for_input = false` makes the engine execute the next node
immediately within the same turn, and this chain of zero-wait
auto-continuations is NOT bounded by any iteration cap: on a cyclic
flow of all-default edges the recursion never returns for any depth,
while the same result with `should_wait_for_input = true` returns
immediately after the transition. -/
theorem auto_continuation_unbounded :
    (∀ n : Nat,
      handleNodeResultFuel flowCyclic oracle0 n freshState (resContinueTo (str "b")) = none) ∧
    handleNodeResultFuel flowCyclic oracle0 1 freshState
      {resContinueTo (str "b") with should_wait_for_input := true} =
      some ({freshState with current_node_id := str "b"},
        {resContinueTo (str "b") with should_wait_for_input := true}) :=
  ⟨fun n => (cyclic_handle_diverges n freshState rfl).1, by decide⟩

/-! ### Claim theorems: edge evaluation -/

/-- Pass-1 verdict for a single edge, per the spec's description: an
edge carrying equation conditions matches iff all of them evaluate
true (edges without equation conditions are pass-2/3 candidates). -/
def pass1Spec (store : Store) (e : Edge) : Option Str :=
  let eqConds := e.conditions.filter (fun c => decide (c.ctype = CondType.equation))
  if !eqConds.isEmpty && eqConds.all (fun c => evaluate_equation store c.condition) then
    some e.target_node_id
  else none

/-- Pass-2 verdict for a single edge, per the spec's description: only
with (truthy) user input, concatenate the edge's prompt conditions into
one yes/no judgment request; an answer beginning with `yes` (after
strip/lowercase) satisfies the edge; an exception or a `no` answer
passes the edge over. -/
def pass2Spec (o : Oracle) (user_input : Option Str) (e : Edge) : Option Str :=
  let promptConds := e.conditions.filter (fun c => decide (c.ctype = CondType.prompt))
  if !promptConds.isEmpty && optTruthy user_input then
    match o.generate
      (buildEvalPrompt (joinNL (promptConds.map (fun c => str "- " ++ c.condition)))
        (user_input.getD [])) none with
    | some resp =>
      if !resp.isEmpty && strStartsWith (str "yes") (pyLower (pyStrip resp)) then
        some e.target_node_id
      else none
    | none => none
  else none

/-- The spec-side formulation of edge evaluation behind C2: sort
ascending by priority, then first pass-1 match, else first pass-2
match, else the first default edge, else no transition — each "first"
via the stock first-match combinators. -/
def specEvaluateTransitions (o : Oracle) (edges : List Edge) (user_input : Option Str)
    (store : Store) : Option Str :=
  let sorted := sortEdges edges
  match sorted.findSome? (pass1Spec store) with
  | some t => some t
  | none =>
    match sorted.findSome? (pass2Spec o user_input) with
    | some t => some t
    | none => (sorted.find? (fun e => e.is_default)).map (fun e => e.target_node_id)

theorem pass1Equations_eq_findSome (store : Store) :
    ∀ edges : List Edge, pass1Equations store edges = edges.findSome? (pass1Spec store) := by
  intro edges
  induction edges with
  | nil => rfl
  | cons e rest ih =>
    rw [List.findSome?_cons]
    simp only [pass1Equations, pass1Spec]
    by_cases hc : (!(e.conditions.filter (fun c => decide (c.ctype = CondType.equation))).isEmpty &&
        (e.conditions.filter (fun c => decide (c.ctype = CondType.equation))).all
          (fun c => evaluate_equation store c.condition)) = true
    · rw [if_pos hc, if_pos hc]
    · rw [if_neg hc, if_neg hc]
      exact ih

theorem pass2Prompts_eq_findSome (o : Oracle) (user_input : Option Str) :
    ∀ edges : List Edge,
      pass2Prompts o user_input edges = edges.findSome? (pass2Spec o user_input) := by
  intro edges
  induction edges with
  | nil => rfl
  | cons e rest ih =>
    rw [List.findSome?_cons]
    simp only [pass2Prompts, pass2Spec]
    by_cases hc : (!(e.conditions.filter (fun c => decide (c.ctype = CondType.prompt))).isEmpty &&
        optTruthy user_input) = true
    · rw [if_pos hc, if_pos hc]
      cases hg : o.generate
        (buildEvalPrompt
          (joinNL ((e.conditions.filter (fun c => decide (c.ctype = CondType.prompt))).map
            (fun c => str "- " ++ c.condition)))
          (user_input.getD [])) none with
      | none => simpa using ih
      | some resp =>
        by_cases hy : (!resp.isEmpty &&
            strStartsWith (str "yes") (pyLower (pyStrip resp))) = true
        · simp [hy]
        · simp [hy, ih]
    · rw [if_neg hc, if_neg hc]
      exact ih

theorem pass3Default_eq_find (edges : List Edge) :
    pass3Default edges = (edges.find? (fun e => e.is_default)).map (fun e => e.target_node_id) := by
  induction edges with
  | nil => rfl
  | cons e rest ih =>
    by_cases hd : e.is_default = true
    · simp [pass3Default, List.find?_cons, hd]
    · have hd' : e.is_default = false := by simpa using hd
      simp [pass3Default, List.find?_cons, hd', ih]

/-- Elements of a priority-insertion are the inserted edge or an
original element. -/
theorem mem_insertByPriority {a e : Edge} :
    ∀ {l : List Edge}, a ∈ insertByPriority e l → a = e ∨ a ∈ l := by
  intro l
  induction l with
  | nil => intro h; simp only [insertByPriority] at h; exact Or.inl (by simpa using h)
  | cons x xs ih =>
    intro h
    simp only [insertByPriority] at h
    by_cases hx : x.priority < e.priority
    · rw [if_pos hx] at h
      rcases List.mem_cons.mp h with h | h
      · exact Or.inr (by simp [h])
      · rcases ih h with h | h
        · exact Or.inl h
        · exact Or.inr (List.mem_cons_of_mem _ h)
    · rw [if_neg hx] at h
      rcases List.mem_cons.mp h with h | h
      · exact Or.inl h
      · exact Or.inr h

theorem insertByPriority_sorted {e : Edge} :
    ∀ {l : List Edge}, l.Pairwise (fun a b => a.priority ≤ b.priority) →
      (insertByPriority e l).Pairwise (fun a b => a.priority ≤ b.priority) := by
  intro l
  induction l with
  | nil => intro _; simp [insertByPriority]
  | cons x xs ih =>
    intro h
    rw [List.pairwise_cons] at h
    obtain ⟨hx, hxs⟩ := h
    simp only [insertByPriority]
    by_cases hlt : x.priority < e.priority
    · rw [if_pos hlt]
      rw [List.pairwise_cons]
      refine ⟨?_, ih hxs⟩
      intro a ha
      rcases mem_insertByPriority ha with rfl | ha
      · omega
      · exact hx a ha
    · rw [if_neg hlt]
      rw [List.pairwise_cons]
      constructor
      · intro a ha
        rcases List.mem_cons.mp ha with rfl | ha
        · omega
        · have := hx a ha
          omega
      · exact List.Pairwise.cons hx hxs

theorem insertByPriority_perm (e : Edge) :
    ∀ l : List Edge, (insertByPriority e l).Perm (e :: l) := by
  intro l
  induction l with
  | nil => simp [insertByPriority]
  | cons x xs ih =>
    simp only [insertByPriority]
    by_cases hlt : x.priority < e.priority
    · rw [if_pos hlt]
      exact (ih.cons x).trans (List.Perm.swap e x xs)
    · rw [if_neg hlt]

theorem sortEdges_sorted :
    ∀ edges : List Edge,
      (sortEdges edges).Pairwise (fun a b => a.priority ≤ b.priority) := by
  intro edges
  induction edges with
  | nil => simp [sortEdges]
  | cons e rest ih => exact insertByPriority_sorted ih

theorem sortEdges_perm : ∀ edges : List Edge, (sortEdges edges).Perm edges := by
  intro edges
  induction edges with
  | nil => rfl
  | cons e rest ih =>
    exact (insertByPriority_perm e (sortEdges rest)).trans (ih.cons e)

/-- C2: edge evaluation implements exactly the claimed three-pass
algorithm over the ascending stable priority order: first edge whose
(nonempty set of) equation conditions all hold; otherwise, with truthy
user input, first edge whose concatenated prompt conditions draw a
generation answer beginning with `yes`; otherwise the first default
edge; otherwise no transition.  The sorted order is ascending in
priority and a permutation of the edge list, and on the spec's example
— a matching priority-1 edge listed before a matching priority-0
edge — the priority-0 edge's target `t2` is selected. -/
theorem edge_evaluation_three_pass :
    (∀ (o : Oracle) (edges : List Edge) (user_input : Option Str) (store : Store),
      evaluate_transitions o edges user_input store =
        specEvaluateTransitions o edges user_input store) ∧
    (∀ edges : List Edge,
      (sortEdges edges).Pairwise (fun a b => a.priority ≤ b.priority) ∧
      (sortEdges edges).Perm edges) ∧
    evaluate_transitions oracle0
      [{ id := str "e1", target_node_id := str "t1",
         conditions := [{ ctype := CondType.equation, condition := str "1 == 1" }],
         priority := 1 },
       { id := str "e2", target_node_id := str "t2",
         conditions := [{ ctype := CondType.equation, condition := str "1 == 1" }],
         priority := 0 }]
      none [] = some (str "t2") := by
  refine ⟨?_, fun edges => ⟨sortEdges_sorted edges, sortEdges_perm edges⟩, by decide⟩
  intro o edges user_input store
  unfold evaluate_transitions specEvaluateTransitions
  by_cases he : edges.isEmpty
  · rw [if_pos he]
    have : edges = [] := List.isEmpty_iff.mp he
    subst this
    rfl
  · rw [if_neg he]
    simp only [pass1Equations_eq_findSome, pass2Prompts_eq_findSome, pass3Default_eq_find]

/-! ### Claim theorems: VAD phase invariant -/

/-- Single-frame step invariant: from SILENCE or SPEAKING the
post-state is again SILENCE or SPEAKING (SPEECH_COMPLETE is consumed by
the in-call reset), and the returned result carries exactly the
post-state. -/
theorem update_state_phase (cfg : VADConfig) (st : VADState) (b : Bool) (data : Bytes)
    (d : ℚ) (h : st.state = SpeechState.silence ∨ st.state = SpeechState.speaking) :
    ((update_state cfg st b data d).1.state = SpeechState.silence ∨
      (update_state cfg st b data d).1.state = SpeechState.speaking) ∧
    (update_state cfg st b data d).2.state = (update_state cfg st b data d).1.state := by
  rcases h with h | h
  · simp only [update_state, h]
    cases b with
    | true => simp
    | false => simp [h]
  · simp only [update_state, h]
    cases b with
    | true => simp
    | false =>
      by_cases hsf : st.silence_frames + 1 ≥ silence_frame_threshold cfg
      · rw [if_pos hsf]
        simp [resetVAD]
      · rw [if_neg hsf]
        simp [h]

/-- Run-level invariant, generalized over the start state. -/
theorem runVAD_phase (cfg : VADConfig) :
    ∀ (inputs : List (Bool × Bytes)) (st : VADState),
      (st.state = SpeechState.silence ∨ st.state = SpeechState.speaking) →
      ((runVAD cfg st inputs).1.state = SpeechState.silence ∨
        (runVAD cfg st inputs).1.state = SpeechState.speaking) ∧
      ∀ r ∈ (runVAD cfg st inputs).2,
        r.state = SpeechState.silence ∨ r.state = SpeechState.speaking := by
  intro inputs
  induction inputs with
  | nil => intro st h; exact ⟨h, by simp [runVAD]⟩
  | cons p rest ih =>
    intro st h
    obtain ⟨b, data⟩ := p
    have hstep := update_state_phase cfg st b data
      ((((data.length / 2 : Nat) : ℚ)) / (cfg.sample_rate : ℚ) * 1000) h
    rcases hp : process_frame cfg st b data with ⟨st1, r⟩
    have hr : (st1.state = SpeechState.silence ∨ st1.state = SpeechState.speaking) ∧
        r.state = st1.state := by
      have : process_frame cfg st b data =
          update_state cfg st b data
            ((((data.length / 2 : Nat) : ℚ)) / (cfg.sample_rate : ℚ) * 1000) := rfl
      rw [this] at hp
      rw [hp] at hstep
      simpa using hstep
    have hrun := ih st1 hr.1
    rcases hq : runVAD cfg st1 rest with ⟨st2, rs⟩
    rw [hq] at hrun
    constructor
    · simpa [runVAD, hp, hq] using hrun.1
    · intro r' hr'
      simp only [runVAD, hp, hq] at hr'
      rcases List.mem_cons.mp hr' with rfl | hmem
      · rw [hr.2]; exact hr.1
      · exact hrun.2 r' hmem

/-- C9: from a freshly constructed or reset processor, the VAD phase
never equals PAUSE — after every frame the held phase is SILENCE or
SPEAKING, and every `process_frame` result carries state SILENCE or
SPEAKING (SPEECH_COMPLETE is always reset to SILENCE within the same
call before the result is returned).  Intermediate phases are covered
because the input list is arbitrary: the phase between calls after any
prefix is the final phase of running that prefix. -/
theorem vad_phase_never_pause (cfg : VADConfig) (inputs : List (Bool × Bytes)) :
    ((runVAD cfg resetVAD inputs).1.state = SpeechState.silence ∨
      (runVAD cfg resetVAD inputs).1.state = SpeechState.speaking) ∧
    (runVAD cfg resetVAD inputs).1.state ≠ SpeechState.pause ∧
    ∀ r ∈ (runVAD cfg resetVAD inputs).2,
      (r.state = SpeechState.silence ∨ r.state = SpeechState.speaking) ∧
      r.state ≠ SpeechState.pause ∧ r.state ≠ SpeechState.speechComplete := by
  have h := runVAD_phase cfg inputs resetVAD (Or.inl rfl)
  refine ⟨h.1, ?_, ?_⟩
  · rcases h.1 with h1 | h1 <;> simp [h1]
  · intro r hr
    have := h.2 r hr
    rcases this with h1 | h1 <;> simp [h1]

/-! ### Supporting lemmas: VAD segmentation arithmetic -/

theorem pyInt_eq_floor {q : ℚ} (h : 0 ≤ q) : pyInt q = ⌊q⌋ := by
  rw [pyInt, Int.tdiv_eq_ediv (Rat.num_nonneg.mpr h) (by positivity), Rat.floor_def]

theorem pyInt_natCast_div (n m : Nat) :
    pyInt ((n : ℚ) / (m : ℚ)) = ((n / m : Nat) : Int) := by
  rw [pyInt_eq_floor (by positivity), Rat.floor_natCast_div_natCast]
  exact (Int.ofNat_tdiv n m).symm

/-- Byte-position conversion: a nonnegative millisecond mark times
`bytes_per_ms = R*2/1000` truncates to the `Nat` formula. -/
theorem pyInt_mul_bpms (a r2 : Nat) :
    pyInt ((a : ℚ) * ((r2 : ℚ) / 1000)) = ((a * r2 / 1000 : Nat) : Int) := by
  have h : (a : ℚ) * ((r2 : ℚ) / 1000) = ((a * r2 : Nat) : ℚ) / ((1000 : Nat) : ℚ) := by
    push_cast
    ring
  rw [h, pyInt_natCast_div]

theorem maxQ_of_le {a b : ℚ} (h : a ≤ b) : maxQ a b = b := by
  rw [maxQ, if_pos h]

theorem maxQ_of_gt {a b : ℚ} (h : b < a) : maxQ a b = a := by
  rw [maxQ, if_neg (by exact not_le.mpr h)]

theorem maxI_of_le {a b : Int} (h : a ≤ b) : maxI a b = b := by
  rw [maxI, if_pos h]

/-- With frames of the configured duration (`(L/2)·1000 = f·R` samples
per frame), the per-frame duration computed by `process_frame` is
exactly the configured `frame_duration_ms`. -/
theorem process_frame_configured (cfg : VADConfig) (L : Nat)
    (hR : 1 ≤ cfg.sample_rate)
    (hd : L / 2 * 1000 = cfg.frame_duration_ms * cfg.sample_rate)
    (st : VADState) (b : Bool) (data : Bytes) (hlen : data.length = L) :
    process_frame cfg st b data =
      update_state cfg st b data (cfg.frame_duration_ms : ℚ) := by
  unfold process_frame
  have hR' : (cfg.sample_rate : ℚ) ≠ 0 := by
    have h0 : 0 < cfg.sample_rate := hR
    positivity
  have hcast : (((L / 2 : Nat) : ℚ)) * 1000 =
      (cfg.frame_duration_ms : ℚ) * (cfg.sample_rate : ℚ) := by
    exact_mod_cast hd
  have harg : (((L / 2 : Nat) : ℚ)) / (cfg.sample_rate : ℚ) * 1000 =
      (cfg.frame_duration_ms : ℚ) := by
    rw [div_mul_eq_mul_div, div_eq_iff hR']
    exact hcast
  rw [hlen]
  show update_state cfg st b data ((((L / 2 : Nat)) : ℚ) / (cfg.sample_rate : ℚ) * 1000) =
    update_state cfg st b data (cfg.frame_duration_ms : ℚ)
  rw [harg]

theorem runVAD_append (cfg : VADConfig) (st : VADState) (xs ys : List (Bool × Bytes)) :
    runVAD cfg st (xs ++ ys) =
      ((runVAD cfg (runVAD cfg st xs).1 ys).1,
        (runVAD cfg st xs).2 ++ (runVAD cfg (runVAD cfg st xs).1 ys).2) := by
  induction xs generalizing st with
  | nil => simp [runVAD]
  | cons p rest ih =>
    obtain ⟨b, data⟩ := p
    simp only [List.cons_append, runVAD]
    rcases hp : process_frame cfg st b data with ⟨st1, r⟩
    simp [ih st1]

theorem runVAD_length (cfg : VADConfig) :
    ∀ (xs : List (Bool × Bytes)) (st : VADState),
      (runVAD cfg st xs).2.length = xs.length := by
  intro xs
  induction xs with
  | nil => intro st; rfl
  | cons p rest ih =>
    intro st
    obtain ⟨b, data⟩ := p
    simp only [runVAD]
    rcases hp : process_frame cfg st b data with ⟨st1, r⟩
    simp [ih st1]

/-- A non-completing frame result. -/
def vadOngoing (s : SpeechState) (sp : Bool) (dur : ℚ) : VADResult :=
  { is_speech_complete := false, audio_data := none, state := s, is_speaking := sp,
    speech_duration_ms := dur }

/-- The processor state while collecting leading silence. -/
def silState (F : List Bytes) (T : ℚ) : VADState where
  state := SpeechState.silence
  buffer :=
    { frames := F, total_duration_ms := T, speech_start_ms := none, speech_end_ms := none }
  silence_frames := 0
  speech_frames := 0

/-- The processor state while tracking an utterance. -/
def spkState (F : List Bytes) (T : ℚ) (sv : ℚ) (sf m : Nat) : VADState where
  state := SpeechState.speaking
  buffer :=
    { frames := F, total_duration_ms := T, speech_start_ms := some sv, speech_end_ms := none }
  silence_frames := sf
  speech_frames := m

theorem resetVAD_eq_silState : resetVAD = silState [] 0 := rfl

theorem step_silence_noTrim (cfg : VADConfig) (F : List Bytes) (T : ℚ) (data : Bytes)
    (d : ℚ) (hle : ¬(T + d > 5000)) :
    update_state cfg (silState F T) false data d =
      (silState (F ++ [data]) (T + d), vadOngoing SpeechState.silence false 0) := by
  simp [update_state, silState, addFrame, vadOngoing, hle]

theorem step_speech_start (cfg : VADConfig) (F : List Bytes) (T : ℚ) (data : Bytes)
    (d : ℚ) :
    update_state cfg (silState F T) true data d =
      (spkState (F ++ [data]) (T + d) (maxQ 0 (T - (cfg.speech_pad_ms : ℚ))) 0 1,
        vadOngoing SpeechState.speaking true ((1 : Nat) * (cfg.frame_duration_ms : ℚ))) := by
  simp [update_state, silState, spkState, addFrame, vadOngoing]

theorem step_speaking_speech (cfg : VADConfig) (F : List Bytes) (T sv : ℚ) (m : Nat)
    (data : Bytes) (d : ℚ) :
    update_state cfg (spkState F T sv 0 m) true data d =
      (spkState (F ++ [data]) (T + d) sv 0 (m + 1),
        vadOngoing SpeechState.speaking true (((m + 1 : Nat)) * (cfg.frame_duration_ms : ℚ))) := by
  simp [update_state, spkState, addFrame, vadOngoing]

theorem step_speaking_silence_below (cfg : VADConfig) (F : List Bytes) (T sv : ℚ)
    (sf m : Nat) (data : Bytes) (d : ℚ)
    (hsf : ¬(sf + 1 ≥ silence_frame_threshold cfg)) :
    update_state cfg (spkState F T sv sf m) false data d =
      (spkState (F ++ [data]) (T + d) sv (sf + 1) m,
        vadOngoing SpeechState.speaking false ((m : ℚ) * (cfg.frame_duration_ms : ℚ))) := by
  simp [update_state, spkState, addFrame, vadOngoing, hsf]

theorem step_complete (cfg : VADConfig) (F : List Bytes) (T sv : ℚ) (sf m : Nat)
    (data : Bytes) (d : ℚ) (hsf : sf + 1 ≥ silence_frame_threshold cfg)
    (hm : m ≥ min_speech_frames cfg) :
    update_state cfg (spkState F T sv sf m) false data d =
      (resetVAD,
        { is_speech_complete := true
          audio_data := get_speech_segment cfg.sample_rate
            { frames := F ++ [data]
              total_duration_ms := T + d
              speech_start_ms := some sv
              speech_end_ms := some (T + d - (sf + 1 : Nat) * d + (cfg.speech_pad_ms : ℚ)) }
          state := SpeechState.silence
          is_speaking := false
          speech_duration_ms := 0 }) := by
  simp [update_state, spkState, addFrame, hsf, hm]

theorem step_complete_noise (cfg : VADConfig) (F : List Bytes) (T sv : ℚ) (sf m : Nat)
    (data : Bytes) (d : ℚ) (hsf : sf + 1 ≥ silence_frame_threshold cfg)
    (hm : ¬(m ≥ min_speech_frames cfg)) :
    update_state cfg (spkState F T sv sf m) false data d =
      (resetVAD, vadOngoing SpeechState.silence false 0) := by
  simp [update_state, spkState, addFrame, vadOngoing, hsf, hm]

theorem silState_congr {F1 F2 : List Bytes} {T1 T2 : ℚ} (hF : F1 = F2) (hT : T1 = T2) :
    silState F1 T1 = silState F2 T2 := by rw [hF, hT]

theorem spkState_congr {F1 F2 : List Bytes} {T1 T2 sv1 sv2 : ℚ} {sf1 sf2 m1 m2 : Nat}
    (hF : F1 = F2) (hT : T1 = T2) (hs : sv1 = sv2) (hsf : sf1 = sf2) (hm : m1 = m2) :
    spkState F1 T1 sv1 sf1 m1 = spkState F2 T2 sv2 sf2 m2 := by
  rw [hF, hT, hs, hsf, hm]

theorem run_silence (cfg : VADConfig) (L : Nat) (hR : 1 ≤ cfg.sample_rate)
    (hd : L / 2 * 1000 = cfg.frame_duration_ms * cfg.sample_rate) :
    ∀ (ds : List Bytes) (F : List Bytes) (T : ℚ),
      (∀ b ∈ ds, b.length = L) →
      T + ds.length * (cfg.frame_duration_ms : ℚ) ≤ 5000 → 0 ≤ T →
      (runVAD cfg (silState F T) (ds.map (fun x => (false, x)))).1 =
        silState (F ++ ds) (T + ds.length * (cfg.frame_duration_ms : ℚ)) ∧
      ∀ r ∈ (runVAD cfg (silState F T) (ds.map (fun x => (false, x)))).2,
        r.is_speech_complete = false := by
  intro ds
  induction ds with
  | nil =>
    intro F T _ _ _
    constructor
    · simp only [List.map_nil, runVAD]
      exact silState_congr (by simp) (by simp)
    · simp [runVAD]
  | cons x ds ih =>
    intro F T hlen hT hT0
    have hxL : x.length = L := hlen x (by simp)
    have hdsL : ∀ b ∈ ds, b.length = L := fun b hb => hlen b (by simp [hb])
    have hf0 : (0 : ℚ) ≤ (cfg.frame_duration_ms : ℚ) := by positivity
    have hds0 : (0 : ℚ) ≤ (ds.length : ℚ) * (cfg.frame_duration_ms : ℚ) := by positivity
    have hTlen : T + ((ds.length : ℚ) + 1) * (cfg.frame_duration_ms : ℚ) ≤ 5000 := by
      have h1 := hT
      simp only [List.length_cons] at h1
      push_cast at h1
      linarith
    have hstep : process_frame cfg (silState F T) false x =
        (silState (F ++ [x]) (T + (cfg.frame_duration_ms : ℚ)),
          vadOngoing SpeechState.silence false 0) := by
      rw [process_frame_configured cfg L hR hd _ _ _ hxL]
      exact step_silence_noTrim cfg F T x _ (by nlinarith)
    have hih := ih (F ++ [x]) (T + (cfg.frame_duration_ms : ℚ)) hdsL (by nlinarith)
      (by positivity)
    constructor
    · simp only [List.map_cons, runVAD, hstep]
      rw [hih.1]
      exact silState_congr (by simp) (by simp only [List.length_cons]; push_cast; ring)
    · intro r hr
      simp only [List.map_cons, runVAD, hstep] at hr
      rcases List.mem_cons.mp hr with rfl | hmem
      · rfl
      · exact hih.2 r hmem

theorem run_speaking (cfg : VADConfig) (L : Nat) (hR : 1 ≤ cfg.sample_rate)
    (hd : L / 2 * 1000 = cfg.frame_duration_ms * cfg.sample_rate) :
    ∀ (ds : List Bytes) (F : List Bytes) (T sv : ℚ) (m : Nat),
      (∀ b ∈ ds, b.length = L) →
      (runVAD cfg (spkState F T sv 0 m) (ds.map (fun x => (true, x)))).1 =
        spkState (F ++ ds) (T + ds.length * (cfg.frame_duration_ms : ℚ)) sv 0
          (m + ds.length) ∧
      ∀ r ∈ (runVAD cfg (spkState F T sv 0 m) (ds.map (fun x => (true, x)))).2,
        r.is_speech_complete = false := by
  intro ds
  induction ds with
  | nil =>
    intro F T sv m _
    constructor
    · simp only [List.map_nil, runVAD]
      exact spkState_congr (by simp) (by simp) rfl rfl (by simp)
    · simp [runVAD]
  | cons x ds ih =>
    intro F T sv m hlen
    have hxL : x.length = L := hlen x (by simp)
    have hdsL : ∀ b ∈ ds, b.length = L := fun b hb => hlen b (by simp [hb])
    have hstep : process_frame cfg (spkState F T sv 0 m) true x =
        (spkState (F ++ [x]) (T + (cfg.frame_duration_ms : ℚ)) sv 0 (m + 1),
          vadOngoing SpeechState.speaking true
            (((m + 1 : Nat)) * (cfg.frame_duration_ms : ℚ))) := by
      rw [process_frame_configured cfg L hR hd _ _ _ hxL]
      exact step_speaking_speech cfg F T sv m x _
    have hih := ih (F ++ [x]) (T + (cfg.frame_duration_ms : ℚ)) sv (m + 1) hdsL
    constructor
    · simp only [List.map_cons, runVAD, hstep]
      rw [hih.1]
      exact spkState_congr (by simp) (by simp only [List.length_cons]; push_cast; ring) rfl rfl
        (by simp only [List.length_cons]; omega)
    · intro r hr
      simp only [List.map_cons, runVAD, hstep] at hr
      rcases List.mem_cons.mp hr with rfl | hmem
      · rfl
      · exact hih.2 r hmem

theorem run_tail_partial (cfg : VADConfig) (L : Nat) (hR : 1 ≤ cfg.sample_rate)
    (hd : L / 2 * 1000 = cfg.frame_duration_ms * cfg.sample_rate) :
    ∀ (ds : List Bytes) (F : List Bytes) (T sv : ℚ) (i m : Nat),
      (∀ b ∈ ds, b.length = L) →
      i + ds.length < silence_frame_threshold cfg →
      (runVAD cfg (spkState F T sv i m) (ds.map (fun x => (false, x)))).1 =
        spkState (F ++ ds) (T + ds.length * (cfg.frame_duration_ms : ℚ)) sv
          (i + ds.length) m ∧
      ∀ r ∈ (runVAD cfg (spkState F T sv i m) (ds.map (fun x => (false, x)))).2,
        r.is_speech_complete = false := by
  intro ds
  induction ds with
  | nil =>
    intro F T sv i m _ _
    constructor
    · simp only [List.map_nil, runVAD]
      exact spkState_congr (by simp) (by simp) rfl (by simp) rfl
    · simp [runVAD]
  | cons x ds ih =>
    intro F T sv i m hlen hθ
    have hxL : x.length = L := hlen x (by simp)
    have hdsL : ∀ b ∈ ds, b.length = L := fun b hb => hlen b (by simp [hb])
    have hbelow : ¬(i + 1 ≥ silence_frame_threshold cfg) := by
      simp only [List.length_cons] at hθ
      omega
    have hstep : process_frame cfg (spkState F T sv i m) false x =
        (spkState (F ++ [x]) (T + (cfg.frame_duration_ms : ℚ)) sv (i + 1) m,
          vadOngoing SpeechState.speaking false ((m : ℚ) * (cfg.frame_duration_ms : ℚ))) := by
      rw [process_frame_configured cfg L hR hd _ _ _ hxL]
      exact step_speaking_silence_below cfg F T sv i m x _ hbelow
    have hih := ih (F ++ [x]) (T + (cfg.frame_duration_ms : ℚ)) sv (i + 1) m hdsL
      (by simp only [List.length_cons] at hθ; omega)
    constructor
    · simp only [List.map_cons, runVAD, hstep]
      rw [hih.1]
      exact spkState_congr (by simp) (by simp only [List.length_cons]; push_cast; ring) rfl
        (by simp only [List.length_cons]; omega) rfl
    · intro r hr
      simp only [List.map_cons, runVAD, hstep] at hr
      rcases List.mem_cons.mp hr with rfl | hmem
      · rfl
      · exact hih.2 r hmem

theorem update_silence_weak (cfg : VADConfig) (st : VADState) (data : Bytes) (d : ℚ)
    (h : st.state = SpeechState.silence) :
    (update_state cfg st false data d).1.state = SpeechState.silence ∧
    (update_state cfg st false data d).2.is_speech_complete = false := by
  simp [update_state, h]

theorem update_speech_entry_weak (cfg : VADConfig) (st : VADState) (data : Bytes) (d : ℚ)
    (h : st.state = SpeechState.silence) :
    (update_state cfg st true data d).1.state = SpeechState.speaking ∧
    (update_state cfg st true data d).1.speech_frames = 1 ∧
    (update_state cfg st true data d).1.silence_frames = 0 ∧
    (update_state cfg st true data d).2.is_speech_complete = false := by
  simp [update_state, h]

theorem update_speaking_speech_weak (cfg : VADConfig) (st : VADState) (data : Bytes)
    (d : ℚ) (h : st.state = SpeechState.speaking) :
    (update_state cfg st true data d).1.state = SpeechState.speaking ∧
    (update_state cfg st true data d).1.speech_frames = st.speech_frames + 1 ∧
    (update_state cfg st true data d).1.silence_frames = 0 ∧
    (update_state cfg st true data d).2.is_speech_complete = false := by
  simp [update_state, h]

theorem pf_silence_weak (cfg : VADConfig) (st : VADState) (data : Bytes)
    (h : st.state = SpeechState.silence) :
    (process_frame cfg st false data).1.state = SpeechState.silence ∧
    (process_frame cfg st false data).2.is_speech_complete = false :=
  update_silence_weak cfg st data _ h

theorem pf_speech_entry_weak (cfg : VADConfig) (st : VADState) (data : Bytes)
    (h : st.state = SpeechState.silence) :
    (process_frame cfg st true data).1.state = SpeechState.speaking ∧
    (process_frame cfg st true data).1.speech_frames = 1 ∧
    (process_frame cfg st true data).1.silence_frames = 0 ∧
    (process_frame cfg st true data).2.is_speech_complete = false :=
  update_speech_entry_weak cfg st data _ h

theorem pf_speaking_speech_weak (cfg : VADConfig) (st : VADState) (data : Bytes)
    (h : st.state = SpeechState.speaking) :
    (process_frame cfg st true data).1.state = SpeechState.speaking ∧
    (process_frame cfg st true data).1.speech_frames = st.speech_frames + 1 ∧
    (process_frame cfg st true data).1.silence_frames = 0 ∧
    (process_frame cfg st true data).2.is_speech_complete = false :=
  update_speaking_speech_weak cfg st data _ h

theorem run_silence_weak (cfg : VADConfig) :
    ∀ (ds : List Bytes) (st : VADState), st.state = SpeechState.silence →
      (runVAD cfg st (ds.map (fun x => (false, x)))).1.state = SpeechState.silence ∧
      ∀ r ∈ (runVAD cfg st (ds.map (fun x => (false, x)))).2,
        r.is_speech_complete = false := by
  intro ds
  induction ds with
  | nil => intro st h; exact ⟨h, by simp [runVAD]⟩
  | cons x ds ih =>
    intro st h
    have hstep := pf_silence_weak cfg st x h
    rcases hp : process_frame cfg st false x with ⟨st1, r⟩
    rw [hp] at hstep
    have hih := ih st1 hstep.1
    constructor
    · simpa [runVAD, hp] using hih.1
    · intro r' hr'
      simp only [List.map_cons, runVAD, hp] at hr'
      rcases List.mem_cons.mp hr' with rfl | hmem
      · exact hstep.2
      · exact hih.2 r' hmem

theorem run_speaking_weak (cfg : VADConfig) :
    ∀ (ds : List Bytes) (st : VADState), st.state = SpeechState.speaking →
      st.silence_frames = 0 →
      (runVAD cfg st (ds.map (fun x => (true, x)))).1.state = SpeechState.speaking ∧
      (runVAD cfg st (ds.map (fun x => (true, x)))).1.speech_frames =
        st.speech_frames + ds.length ∧
      (runVAD cfg st (ds.map (fun x => (true, x)))).1.silence_frames = 0 ∧
      ∀ r ∈ (runVAD cfg st (ds.map (fun x => (true, x)))).2,
        r.is_speech_complete = false := by
  intro ds
  induction ds with
  | nil =>
    intro st h hs
    exact ⟨h, by simp [runVAD], by simpa [runVAD] using hs, by simp [runVAD]⟩
  | cons x ds ih =>
    intro st h hs
    have hstep := pf_speaking_speech_weak cfg st x h
    rcases hp : process_frame cfg st true x with ⟨st1, r⟩
    rw [hp] at hstep
    have hih := ih st1 hstep.1 hstep.2.2.1
    refine ⟨?_, ?_, ?_, ?_⟩
    · simpa [runVAD, hp] using hih.1
    · have h2 := hih.2.1
      rw [hstep.2.1] at h2
      simp only [List.map_cons, runVAD, hp, List.length_cons]
      omega
    · simpa [runVAD, hp] using hih.2.2.1
    · intro r' hr'
      simp only [List.map_cons, runVAD, hp] at hr'
      rcases List.mem_cons.mp hr' with rfl | hmem
      · exact hstep.2.2.2
      · exact hih.2.2.2 r' hmem

theorem pf_noise_step (cfg : VADConfig) (st : VADState) (data : Bytes)
    (h : st.state = SpeechState.speaking)
    (hm : st.speech_frames < min_speech_frames cfg) :
    (process_frame cfg st false data).2.is_speech_complete = false ∧
    ((process_frame cfg st false data).1.state = SpeechState.silence ∨
      ((process_frame cfg st false data).1.state = SpeechState.speaking ∧
        (process_frame cfg st false data).1.speech_frames < min_speech_frames cfg)) := by
  have hlt : ¬(st.speech_frames ≥ min_speech_frames cfg) := Nat.not_le.mpr hm
  by_cases hsf : st.silence_frames + 1 ≥ silence_frame_threshold cfg
  · constructor
    · simp [process_frame, update_state, h, hsf, hlt]
    · left
      simp [process_frame, update_state, h, hsf, resetVAD]
  · constructor
    · simp [process_frame, update_state, h, hsf]
    · right
      constructor
      · simp [process_frame, update_state, h, hsf]
      · simpa [process_frame, update_state, h, hsf] using hm

theorem run_noise (cfg : VADConfig) :
    ∀ (ds : List Bytes) (st : VADState),
      (st.state = SpeechState.silence ∨
        (st.state = SpeechState.speaking ∧
          st.speech_frames < min_speech_frames cfg)) →
      ((runVAD cfg st (ds.map (fun b => (false, b)))).1.state = SpeechState.silence ∨
        ((runVAD cfg st (ds.map (fun b => (false, b)))).1.state = SpeechState.speaking ∧
          (runVAD cfg st (ds.map (fun b => (false, b)))).1.speech_frames <
            min_speech_frames cfg)) ∧
      ∀ r ∈ (runVAD cfg st (ds.map (fun b => (false, b)))).2,
        r.is_speech_complete = false := by
  intro ds
  induction ds with
  | nil => intro st h; exact ⟨h, by simp [runVAD]⟩
  | cons x ds ih =>
    intro st h
    rcases h with h | ⟨h, hm⟩
    · have hstep := pf_silence_weak cfg st x h
      rcases hp : process_frame cfg st false x with ⟨st1, r⟩
      rw [hp] at hstep
      have hih := ih st1 (Or.inl hstep.1)
      constructor
      · simpa [runVAD, hp] using hih.1
      · intro r' hr'
        simp only [List.map_cons, runVAD, hp] at hr'
        rcases List.mem_cons.mp hr' with rfl | hmem
        · exact hstep.2
        · exact hih.2 r' hmem
    · have hstep := pf_noise_step cfg st x h hm
      rcases hp : process_frame cfg st false x with ⟨st1, r⟩
      rw [hp] at hstep
      have hih := ih st1 hstep.2
      constructor
      · simpa [runVAD, hp] using hih.1
      · intro r' hr'
        simp only [List.map_cons, runVAD, hp] at hr'
        rcases List.mem_cons.mp hr' with rfl | hmem
        · exact hstep.1
        · exact hih.2 r' hmem

theorem vad_short_speech_all_incomplete (cfg : VADConfig)
    (es1 es2 es3 : List Bytes) (hlt : es2.length < min_speech_frames cfg) :
    ∀ r ∈ (runVAD cfg resetVAD
        (es1.map (fun b => (false, b)) ++ es2.map (fun b => (true, b)) ++
          es3.map (fun b => (false, b)))).2,
      r.is_speech_complete = false := by
  intro r hr
  have hE1 := run_silence_weak cfg es1 resetVAD rfl
  rcases hq1 : runVAD cfg resetVAD (es1.map (fun b => (false, b))) with ⟨sA, rsA⟩
  rw [hq1] at hE1
  rcases hq2 : runVAD cfg sA (es2.map (fun b => (true, b))) with ⟨sB, rsB⟩
  have hE2 : (sB.state = SpeechState.silence ∨
      (sB.state = SpeechState.speaking ∧ sB.speech_frames < min_speech_frames cfg)) ∧
      ∀ r' ∈ rsB, r'.is_speech_complete = false := by
    rcases es2 with _ | ⟨z, es2'⟩
    · simp only [List.map_nil, runVAD] at hq2
      obtain ⟨rfl, rfl⟩ := Prod.mk.injEq .. ▸ hq2
      exact ⟨Or.inl hE1.1, by simp⟩
    · have hentry := pf_speech_entry_weak cfg sA z hE1.1
      rcases hp2 : process_frame cfg sA true z with ⟨sZ, rZ⟩
      rw [hp2] at hentry
      have hrun := run_speaking_weak cfg es2' sZ hentry.1 hentry.2.2.1
      rcases hq3 : runVAD cfg sZ (es2'.map (fun b => (true, b))) with ⟨sC, rsC⟩
      rw [hq3] at hrun
      simp only [List.map_cons, runVAD, hp2, hq3] at hq2
      obtain ⟨rfl, rfl⟩ := Prod.mk.injEq .. ▸ hq2
      refine ⟨Or.inr ⟨hrun.1, ?_⟩, ?_⟩
      · rw [hrun.2.1, hentry.2.1]
        simp only [List.length_cons] at hlt
        omega
      · intro r' hr'
        rcases List.mem_cons.mp hr' with rfl | hmem
        · exact hentry.2.2.2
        · exact hrun.2.2.2 r' hmem
  have hE3 := run_noise cfg es3 sB hE2.1
  rw [List.append_assoc, runVAD_append, hq1] at hr
  rw [runVAD_append, hq2] at hr
  simp only [] at hr
  rcases List.mem_append.mp hr with h | h
  · exact hE1.2 r h
  rcases List.mem_append.mp h with h | h
  · exact hE2.2 r h
  · exact hE3.2 r h

theorem get_segment_eval (R G a e : Nat) (F : List Bytes) (T sQ eQ : ℚ)
    (hs : sQ = maxQ 0 ((a : ℚ) - (G : ℚ)))
    (he : eQ = (e : ℚ)) (he1 : 1 ≤ e) (hne : ¬F.flatten = []) :
    get_speech_segment R
      { frames := F, total_duration_ms := T,
        speech_start_ms := some sQ, speech_end_ms := some eQ } =
      some ((F.flatten.take (e * (R * 2) / 1000)).drop ((a - G) * (R * 2) / 1000)) := by
  subst hs he
  have hE : F.flatten.isEmpty = false := by
    simpa [List.isEmpty_iff] using hne
  have heQ : ¬((e : ℚ) = 0) := by
    rw [Nat.cast_eq_zero]
    omega
  have hend : (pyInt ((e : ℚ) * (((R * 2 : Nat) : ℚ) / 1000))).toNat =
      e * (R * 2) / 1000 := by
    rw [pyInt_mul_bpms e (R * 2)]
    exact Int.toNat_natCast _
  by_cases hga : G ≤ a
  · have h0 : (0 : ℚ) ≤ (a : ℚ) - (G : ℚ) := by
      have := (Nat.cast_le (α := ℚ)).mpr hga
      linarith
    have hstart : (maxI 0 (pyInt (maxQ 0 ((a : ℚ) - (G : ℚ)) *
        (((R * 2 : Nat) : ℚ) / 1000)))).toNat = (a - G) * (R * 2) / 1000 := by
      rw [maxQ_of_le h0, show (a : ℚ) - (G : ℚ) = ((a - G : Nat) : ℚ) from
        by rw [Nat.cast_sub hga], pyInt_mul_bpms (a - G) (R * 2),
        maxI_of_le (Int.natCast_nonneg _)]
      exact Int.toNat_natCast _
    simp only [get_speech_segment, hE, Bool.false_eq_true, if_false, heQ, if_neg,
      hstart, hend]
  · have hlt' : a < G := Nat.lt_of_not_le hga
    have h0 : (a : ℚ) - (G : ℚ) < 0 := by
      have := (Nat.cast_lt (α := ℚ)).mpr hlt'
      linarith
    have hz : a - G = 0 := Nat.sub_eq_zero_of_le (Nat.le_of_lt hlt')
    have hstart : (maxI 0 (pyInt (maxQ 0 ((a : ℚ) - (G : ℚ)) *
        (((R * 2 : Nat) : ℚ) / 1000)))).toNat = (a - G) * (R * 2) / 1000 := by
      rw [maxQ_of_gt h0, zero_mul, hz]
      norm_num [pyInt, maxI]
    simp only [get_speech_segment, hE, Bool.false_eq_true, if_false, heQ, if_neg,
      hstart, hend]

theorem vad_segment_unique_complete (cfg : VADConfig) (L N M K : Nat)
    (ds1 ds2 ds3 : List Bytes)
    (hR : 1 ≤ cfg.sample_rate)
    (hf : 1 ≤ cfg.frame_duration_ms)
    (hfS : cfg.frame_duration_ms ≤ cfg.silence_threshold_ms)
    (hm1 : 1 ≤ cfg.min_speech_duration_ms)
    (hd : L / 2 * 1000 = cfg.frame_duration_ms * cfg.sample_rate)
    (h1 : ∀ b ∈ ds1, b.length = L) (h2 : ∀ b ∈ ds2, b.length = L)
    (h3 : ∀ b ∈ ds3, b.length = L)
    (hN : ds1.length = N) (hM : ds2.length = M) (hK : ds3.length = K)
    (hKS : cfg.silence_threshold_ms ≤ K * cfg.frame_duration_ms)
    (hMS : cfg.min_speech_duration_ms ≤ M * cfg.frame_duration_ms)
    (hTrim : N * cfg.frame_duration_ms ≤ 5000) :
    ((runVAD cfg resetVAD
        (ds1.map (fun b => (false, b)) ++ ds2.map (fun b => (true, b)) ++
          ds3.map (fun b => (false, b)))).2.countP
        (fun r => r.is_speech_complete)) = 1 ∧
    ((runVAD cfg resetVAD
        (ds1.map (fun b => (false, b)) ++ ds2.map (fun b => (true, b)) ++
          ds3.map (fun b => (false, b)))).2[N + M + silence_frame_threshold cfg - 1]? =
      some
        { is_speech_complete := true
          audio_data := some
            ((((ds1 ++ ds2 ++ ds3.take (silence_frame_threshold cfg)).flatten).take
                (((N + M) * cfg.frame_duration_ms + cfg.speech_pad_ms) *
                  (cfg.sample_rate * 2) / 1000)).drop
              ((N * cfg.frame_duration_ms - cfg.speech_pad_ms) *
                (cfg.sample_rate * 2) / 1000))
          state := SpeechState.silence
          is_speaking := false
          speech_duration_ms := 0 }) := by
  have hthr1 : 1 ≤ silence_frame_threshold cfg := by
    rw [silence_frame_threshold]
    exact (Nat.one_le_div_iff hf).mpr hfS
  have hthrK : silence_frame_threshold cfg ≤ K := by
    rw [silence_frame_threshold]
    have h := Nat.div_le_div_right (c := cfg.frame_duration_ms) hKS
    rwa [Nat.mul_div_cancel K hf] at h
  have hminFM : min_speech_frames cfg ≤ M := by
    rw [min_speech_frames]
    have h := Nat.div_le_div_right (c := cfg.frame_duration_ms) hMS
    rwa [Nat.mul_div_cancel M hf] at h
  have hM1 : 1 ≤ M := by
    rcases Nat.eq_zero_or_pos M with h | h
    · exfalso
      rw [h] at hMS
      simp at hMS
      omega
    · exact h
  have hK1 : 1 ≤ K := by
    rcases Nat.eq_zero_or_pos K with h | h
    · exfalso
      rw [h] at hKS
      simp at hKS
      omega
    · exact h
  have hL2 : 2 ≤ L := by
    rcases Nat.eq_zero_or_pos (L / 2) with h | h
    · exfalso
      have h2' := Nat.mul_pos hf hR
      rw [← hd, h] at h2'
      simp at h2'
    · omega
  rcases ds2 with _ | ⟨x, ds2'⟩
  · exfalso
    simp at hM
    omega
  have hM2 : ds2'.length = M - 1 := by
    simp at hM
    omega
  have hxL : x.length = L := h2 x (by simp)
  have h2' : ∀ b ∈ ds2', b.length = L := fun b hb => h2 b (by simp [hb])
  have hltK : silence_frame_threshold cfg - 1 < ds3.length := by
    rw [hK]
    omega
  obtain ⟨t3, y, rest, heq3, ht3len⟩ :
      ∃ t3 y rest, ds3 = t3 ++ y :: rest ∧
        t3.length = silence_frame_threshold cfg - 1 := by
    refine ⟨ds3.take (silence_frame_threshold cfg - 1),
      ds3.get ⟨silence_frame_threshold cfg - 1, hltK⟩,
      ds3.drop (silence_frame_threshold cfg - 1 + 1), ?_, ?_⟩
    · rw [List.get_eq_getElem]
      conv_lhs => rw [← List.take_append_drop (silence_frame_threshold cfg - 1) ds3]
      rw [List.drop_eq_getElem_cons hltK]
    · rw [List.length_take]
      omega
  have hyL : y.length = L := h3 y (by
    rw [heq3]
    exact List.mem_append_right _ (List.mem_cons_self y rest))
  have ht3 : ∀ b ∈ t3, b.length = L := fun b hb => h3 b (by
    rw [heq3]
    exact List.mem_append_left _ hb)
  have hINP : ds1.map (fun b => (false, b)) ++ (x :: ds2').map (fun b => (true, b)) ++
      ds3.map (fun b => (false, b)) =
      ds1.map (fun b => (false, b)) ++ ((true, x) ::
        (ds2'.map (fun b => (true, b)) ++ (t3.map (fun b => (false, b)) ++
          ((false, y) :: rest.map (fun b => (false, b)))))) := by
    rw [heq3]
    simp [List.append_assoc]
  have hb1 : (0 : ℚ) + ds1.length * (cfg.frame_duration_ms : ℚ) ≤ 5000 := by
    have hq : ((N * cfg.frame_duration_ms : Nat) : ℚ) ≤ ((5000 : Nat) : ℚ) :=
      Nat.cast_le.mpr hTrim
    push_cast at hq
    rw [hN]
    linarith
  have hP1 := run_silence cfg L hR hd ds1 [] 0 h1 hb1 le_rfl
  rcases hq1 : runVAD cfg resetVAD (ds1.map (fun b => (false, b))) with ⟨stA, rs1⟩
  rw [← resetVAD_eq_silState, hq1] at hP1
  have hstA : stA = silState ds1 ((N : ℚ) * (cfg.frame_duration_ms : ℚ)) := by
    have h : stA = silState ([] ++ ds1)
        (0 + ds1.length * (cfg.frame_duration_ms : ℚ)) := hP1.1
    refine h.trans ?_
    exact silState_congr (by simp) (by rw [hN]; ring)
  have hPF2 : process_frame cfg stA true x =
      (spkState (ds1 ++ [x])
          ((N : ℚ) * (cfg.frame_duration_ms : ℚ) + (cfg.frame_duration_ms : ℚ))
          (maxQ 0 ((N : ℚ) * (cfg.frame_duration_ms : ℚ) - (cfg.speech_pad_ms : ℚ))) 0 1,
        vadOngoing SpeechState.speaking true ((1 : Nat) * (cfg.frame_duration_ms : ℚ))) := by
    rw [hstA, process_frame_configured cfg L hR hd _ true x hxL]
    exact step_speech_start cfg ds1 ((N : ℚ) * (cfg.frame_duration_ms : ℚ)) x
      (cfg.frame_duration_ms : ℚ)
  have hP3 := run_speaking cfg L hR hd ds2' (ds1 ++ [x])
      ((N : ℚ) * (cfg.frame_duration_ms : ℚ) + (cfg.frame_duration_ms : ℚ))
      (maxQ 0 ((N : ℚ) * (cfg.frame_duration_ms : ℚ) - (cfg.speech_pad_ms : ℚ))) 1 h2'
  rcases hq3 : runVAD cfg
      (spkState (ds1 ++ [x])
        ((N : ℚ) * (cfg.frame_duration_ms : ℚ) + (cfg.frame_duration_ms : ℚ))
        (maxQ 0 ((N : ℚ) * (cfg.frame_duration_ms : ℚ) - (cfg.speech_pad_ms : ℚ))) 0 1)
      (ds2'.map (fun b => (true, b))) with ⟨stB, rs3⟩
  rw [hq3] at hP3
  have hstB : stB = spkState (ds1 ++ x :: ds2')
      ((N : ℚ) * (cfg.frame_duration_ms : ℚ) + (M : ℚ) * (cfg.frame_duration_ms : ℚ))
      (maxQ 0 ((N : ℚ) * (cfg.frame_duration_ms : ℚ) - (cfg.speech_pad_ms : ℚ))) 0 M := by
    have h : stB = spkState ((ds1 ++ [x]) ++ ds2')
        ((N : ℚ) * (cfg.frame_duration_ms : ℚ) + (cfg.frame_duration_ms : ℚ) +
          ds2'.length * (cfg.frame_duration_ms : ℚ))
        (maxQ 0 ((N : ℚ) * (cfg.frame_duration_ms : ℚ) - (cfg.speech_pad_ms : ℚ))) 0
        (1 + ds2'.length) := hP3.1
    refine h.trans ?_
    refine spkState_congr (by simp) ?_ rfl rfl (by omega)
    rw [hM2]
    push_cast [Nat.cast_sub hM1]
    ring
  have hP4 := run_tail_partial cfg L hR hd t3 (ds1 ++ x :: ds2')
      ((N : ℚ) * (cfg.frame_duration_ms : ℚ) + (M : ℚ) * (cfg.frame_duration_ms : ℚ))
      (maxQ 0 ((N : ℚ) * (cfg.frame_duration_ms : ℚ) - (cfg.speech_pad_ms : ℚ))) 0 M ht3
      (by rw [ht3len]; omega)
  rcases hq4 : runVAD cfg
      (spkState (ds1 ++ x :: ds2')
        ((N : ℚ) * (cfg.frame_duration_ms : ℚ) + (M : ℚ) * (cfg.frame_duration_ms : ℚ))
        (maxQ 0 ((N : ℚ) * (cfg.frame_duration_ms : ℚ) - (cfg.speech_pad_ms : ℚ))) 0 M)
      (t3.map (fun b => (false, b))) with ⟨stC, rs4⟩
  rw [hq4] at hP4
  have hstC : stC = spkState ((ds1 ++ x :: ds2') ++ t3)
      ((N : ℚ) * (cfg.frame_duration_ms : ℚ) + (M : ℚ) * (cfg.frame_duration_ms : ℚ) +
        ((silence_frame_threshold cfg - 1 : Nat) : ℚ) * (cfg.frame_duration_ms : ℚ))
      (maxQ 0 ((N : ℚ) * (cfg.frame_duration_ms : ℚ) - (cfg.speech_pad_ms : ℚ)))
      (silence_frame_threshold cfg - 1) M := by
    have h : stC = spkState ((ds1 ++ x :: ds2') ++ t3)
        ((N : ℚ) * (cfg.frame_duration_ms : ℚ) + (M : ℚ) * (cfg.frame_duration_ms : ℚ) +
          t3.length * (cfg.frame_duration_ms : ℚ))
        (maxQ 0 ((N : ℚ) * (cfg.frame_duration_ms : ℚ) - (cfg.speech_pad_ms : ℚ)))
        (0 + t3.length) M := hP4.1
    refine h.trans ?_
    refine spkState_congr rfl ?_ rfl (by omega) rfl
    rw [ht3len]
  have hsfC : (silence_frame_threshold cfg - 1) + 1 ≥ silence_frame_threshold cfg := by
    omega
  have hPF5 : process_frame cfg
      (spkState ((ds1 ++ x :: ds2') ++ t3)
        ((N : ℚ) * (cfg.frame_duration_ms : ℚ) + (M : ℚ) * (cfg.frame_duration_ms : ℚ) +
          ((silence_frame_threshold cfg - 1 : Nat) : ℚ) * (cfg.frame_duration_ms : ℚ))
        (maxQ 0 ((N : ℚ) * (cfg.frame_duration_ms : ℚ) - (cfg.speech_pad_ms : ℚ)))
        (silence_frame_threshold cfg - 1) M) false y =
      (resetVAD,
        { is_speech_complete := true
          audio_data := get_speech_segment cfg.sample_rate
            { frames := (((ds1 ++ x :: ds2') ++ t3) ++ [y])
              total_duration_ms := (N : ℚ) * (cfg.frame_duration_ms : ℚ) +
                (M : ℚ) * (cfg.frame_duration_ms : ℚ) +
                ((silence_frame_threshold cfg - 1 : Nat) : ℚ) *
                  (cfg.frame_duration_ms : ℚ) + (cfg.frame_duration_ms : ℚ)
              speech_start_ms := some (maxQ 0 ((N : ℚ) * (cfg.frame_duration_ms : ℚ) -
                (cfg.speech_pad_ms : ℚ)))
              speech_end_ms := some ((N : ℚ) * (cfg.frame_duration_ms : ℚ) +
                (M : ℚ) * (cfg.frame_duration_ms : ℚ) +
                ((silence_frame_threshold cfg - 1 : Nat) : ℚ) *
                  (cfg.frame_duration_ms : ℚ) + (cfg.frame_duration_ms : ℚ) -
                ((silence_frame_threshold cfg - 1 + 1 : Nat) : ℚ) *
                  (cfg.frame_duration_ms : ℚ) + (cfg.speech_pad_ms : ℚ)) }
          state := SpeechState.silence
          is_speaking := false
          speech_duration_ms := 0 }) := by
    rw [process_frame_configured cfg L hR hd _ false y hyL]
    exact step_complete cfg ((ds1 ++ x :: ds2') ++ t3)
      ((N : ℚ) * (cfg.frame_duration_ms : ℚ) + (M : ℚ) * (cfg.frame_duration_ms : ℚ) +
        ((silence_frame_threshold cfg - 1 : Nat) : ℚ) * (cfg.frame_duration_ms : ℚ))
      (maxQ 0 ((N : ℚ) * (cfg.frame_duration_ms : ℚ) - (cfg.speech_pad_ms : ℚ)))
      (silence_frame_threshold cfg - 1) M y (cfg.frame_duration_ms : ℚ) hsfC hminFM
  have hP6 := run_silence_weak cfg rest resetVAD rfl
  have hRES : (runVAD cfg resetVAD
      (ds1.map (fun b => (false, b)) ++ (x :: ds2').map (fun b => (true, b)) ++
        ds3.map (fun b => (false, b)))).2 =
      rs1 ++ (vadOngoing SpeechState.speaking true
          ((1 : Nat) * (cfg.frame_duration_ms : ℚ)) ::
        (rs3 ++ (rs4 ++
          ({ is_speech_complete := true
             audio_data := get_speech_segment cfg.sample_rate
               { frames := (((ds1 ++ x :: ds2') ++ t3) ++ [y])
                 total_duration_ms := (N : ℚ) * (cfg.frame_duration_ms : ℚ) +
                   (M : ℚ) * (cfg.frame_duration_ms : ℚ) +
                   ((silence_frame_threshold cfg - 1 : Nat) : ℚ) *
                     (cfg.frame_duration_ms : ℚ) + (cfg.frame_duration_ms : ℚ)
                 speech_start_ms := some (maxQ 0 ((N : ℚ) *
                   (cfg.frame_duration_ms : ℚ) - (cfg.speech_pad_ms : ℚ)))
                 speech_end_ms := some ((N : ℚ) * (cfg.frame_duration_ms : ℚ) +
                   (M : ℚ) * (cfg.frame_duration_ms : ℚ) +
                   ((silence_frame_threshold cfg - 1 : Nat) : ℚ) *
                     (cfg.frame_duration_ms : ℚ) + (cfg.frame_duration_ms : ℚ) -
                   ((silence_frame_threshold cfg - 1 + 1 : Nat) : ℚ) *
                     (cfg.frame_duration_ms : ℚ) + (cfg.speech_pad_ms : ℚ)) }
             state := SpeechState.silence
             is_speaking := false
             speech_duration_ms := 0 } :
            VADResult) ::
            (runVAD cfg resetVAD (rest.map (fun b => (false, b)))).2))) := by
    rw [hINP]
    simp only [runVAD_append, hq1, runVAD, hPF2, hq3, hstB, hq4, hstC, hPF5]
  have hlen1 : rs1.length = N := by
    have h := runVAD_length cfg (ds1.map (fun b => (false, b))) resetVAD
    rw [hq1] at h
    simpa [hN] using h
  have hlen3 : rs3.length = M - 1 := by
    have h := runVAD_length cfg (ds2'.map (fun b => (true, b)))
      (spkState (ds1 ++ [x])
        ((N : ℚ) * (cfg.frame_duration_ms : ℚ) + (cfg.frame_duration_ms : ℚ))
        (maxQ 0 ((N : ℚ) * (cfg.frame_duration_ms : ℚ) - (cfg.speech_pad_ms : ℚ))) 0 1)
    rw [hq3] at h
    simpa [hM2] using h
  have hlen4 : rs4.length = silence_frame_threshold cfg - 1 := by
    have h := runVAD_length cfg (t3.map (fun b => (false, b)))
      (spkState (ds1 ++ x :: ds2')
        ((N : ℚ) * (cfg.frame_duration_ms : ℚ) + (M : ℚ) * (cfg.frame_duration_ms : ℚ))
        (maxQ 0 ((N : ℚ) * (cfg.frame_duration_ms : ℚ) - (cfg.speech_pad_ms : ℚ))) 0 M)
    rw [hq4] at h
    simpa [ht3len] using h
  have hz1 : rs1.countP (fun r => r.is_speech_complete) = 0 :=
    List.countP_eq_zero.mpr (fun a ha => by simp [hP1.2 a ha])
  have hz3 : rs3.countP (fun r => r.is_speech_complete) = 0 :=
    List.countP_eq_zero.mpr (fun a ha => by simp [hP3.2 a ha])
  have hz4 : rs4.countP (fun r => r.is_speech_complete) = 0 :=
    List.countP_eq_zero.mpr (fun a ha => by simp [hP4.2 a ha])
  have hz6 : (runVAD cfg resetVAD
      (rest.map (fun b => (false, b)))).2.countP (fun r => r.is_speech_complete) = 0 :=
    List.countP_eq_zero.mpr (fun a ha => by simp [hP6.2 a ha])
  have hF : (((ds1 ++ x :: ds2') ++ t3) ++ [y]) =
      ds1 ++ x :: ds2' ++ ds3.take (silence_frame_threshold cfg) := by
    rw [List.append_assoc]
    congr 1
    rw [heq3, show silence_frame_threshold cfg = t3.length + 1 from by omega,
      List.take_append, List.take_succ_cons, List.take_zero]
  have hneF : ¬(ds1 ++ x :: ds2' ++ ds3.take (silence_frame_threshold cfg)).flatten = [] := by
    intro hc
    rw [List.flatten_eq_nil_iff] at hc
    have hx0 := hc x (by simp)
    rw [hx0] at hxL
    simp at hxL
    omega
  have he1' : 1 ≤ (N + M) * cfg.frame_duration_ms + cfg.speech_pad_ms := by
    have h : 0 < (N + M) * cfg.frame_duration_ms :=
      Nat.mul_pos (by omega) hf
    omega
  have hsEq : maxQ 0 ((N : ℚ) * (cfg.frame_duration_ms : ℚ) - (cfg.speech_pad_ms : ℚ)) =
      maxQ 0 (((N * cfg.frame_duration_ms : Nat) : ℚ) - ((cfg.speech_pad_ms : Nat) : ℚ)) := by
    push_cast
    ring_nf
  have heEq : (N : ℚ) * (cfg.frame_duration_ms : ℚ) +
      (M : ℚ) * (cfg.frame_duration_ms : ℚ) +
      ((silence_frame_threshold cfg - 1 : Nat) : ℚ) * (cfg.frame_duration_ms : ℚ) +
      (cfg.frame_duration_ms : ℚ) -
      ((silence_frame_threshold cfg - 1 + 1 : Nat) : ℚ) * (cfg.frame_duration_ms : ℚ) +
      (cfg.speech_pad_ms : ℚ) =
      (((N + M) * cfg.frame_duration_ms + cfg.speech_pad_ms : Nat) : ℚ) := by
    push_cast [Nat.cast_sub hthr1]
    ring
  constructor
  · rw [hRES]
    simp [List.countP_append, List.countP_cons, hz1, hz3, hz4, hz6, vadOngoing]
  · rw [hRES]
    rw [List.getElem?_append_right (by omega : rs1.length ≤
      N + M + silence_frame_threshold cfg - 1)]
    rw [hlen1]
    rw [show N + M + silence_frame_threshold cfg - 1 - N =
      (M + silence_frame_threshold cfg - 2) + 1 from by omega]
    rw [List.getElem?_cons_succ]
    rw [List.getElem?_append_right (by omega : rs3.length ≤
      M + silence_frame_threshold cfg - 2)]
    rw [hlen3]
    rw [show M + silence_frame_threshold cfg - 2 - (M - 1) =
      silence_frame_threshold cfg - 1 from by omega]
    rw [List.getElem?_append_right (by omega : rs4.length ≤
      silence_frame_threshold cfg - 1)]
    rw [hlen4, Nat.sub_self, List.getElem?_cons_zero]
    refine congrArg some ?_
    rw [hF]
    rw [get_segment_eval cfg.sample_rate cfg.speech_pad_ms
      (N * cfg.frame_duration_ms) ((N + M) * cfg.frame_duration_ms + cfg.speech_pad_ms)
      _ _ _ _ hsEq heEq he1' hneF]

/-- C3: feeding N silence frames, then M speech frames, then K silence
frames from a freshly reset processor — frames of the configured
duration, with `K·frameLen ≥ silenceThresholdMs` and
`M·frameLen ≥ minSpeechMs` — yields exactly one completed-utterance
result: it is emitted at frame index `N + M + silence_frame_threshold - 1`
and its byte range spans from (speech onset − padding, clamped at zero)
to (silence onset + padding), converted at `sample_rate·2/1000` bytes
per millisecond; and feeding any speech run of fewer than
`min_speech_frames` frames surrounded by silence yields no completed
utterance.  (The leading silence is assumed short enough, `N·frameLen ≤
5000`, that the silence-phase buffer trimming never fires; the
configured durations are positive and the silence threshold is at least
one frame long.) -/
theorem vad_utterance_segmentation (cfg : VADConfig) (L N M K : Nat)
    (ds1 ds2 ds3 : List Bytes)
    (hR : 1 ≤ cfg.sample_rate)
    (hf : 1 ≤ cfg.frame_duration_ms)
    (hfS : cfg.frame_duration_ms ≤ cfg.silence_threshold_ms)
    (hm1 : 1 ≤ cfg.min_speech_duration_ms)
    (hd : L / 2 * 1000 = cfg.frame_duration_ms * cfg.sample_rate)
    (h1 : ∀ b ∈ ds1, b.length = L) (h2 : ∀ b ∈ ds2, b.length = L)
    (h3 : ∀ b ∈ ds3, b.length = L)
    (hN : ds1.length = N) (hM : ds2.length = M) (hK : ds3.length = K)
    (hKS : cfg.silence_threshold_ms ≤ K * cfg.frame_duration_ms)
    (hMS : cfg.min_speech_duration_ms ≤ M * cfg.frame_duration_ms)
    (hTrim : N * cfg.frame_duration_ms ≤ 5000) :
    (((runVAD cfg resetVAD
        (ds1.map (fun b => (false, b)) ++ ds2.map (fun b => (true, b)) ++
          ds3.map (fun b => (false, b)))).2.countP
        (fun r => r.is_speech_complete)) = 1 ∧
      ((runVAD cfg resetVAD
          (ds1.map (fun b => (false, b)) ++ ds2.map (fun b => (true, b)) ++
            ds3.map (fun b => (false, b)))).2[N + M +
              silence_frame_threshold cfg - 1]? =
        some
          { is_speech_complete := true
            audio_data := some
              ((((ds1 ++ ds2 ++ ds3.take (silence_frame_threshold cfg)).flatten).take
                  (((N + M) * cfg.frame_duration_ms + cfg.speech_pad_ms) *
                    (cfg.sample_rate * 2) / 1000)).drop
                ((N * cfg.frame_duration_ms - cfg.speech_pad_ms) *
                  (cfg.sample_rate * 2) / 1000))
            state := SpeechState.silence
            is_speaking := false
            speech_duration_ms := 0 })) ∧
    (∀ es1 es2 es3 : List Bytes, es2.length < min_speech_frames cfg →
      ∀ r ∈ (runVAD cfg resetVAD
          (es1.map (fun b => (false, b)) ++ es2.map (fun b => (true, b)) ++
            es3.map (fun b => (false, b)))).2,
        r.is_speech_complete = false) :=
  ⟨vad_segment_unique_complete cfg L N M K ds1 ds2 ds3 hR hf hfS hm1 hd h1 h2 h3
      hN hM hK hKS hMS hTrim,
    fun es1 es2 es3 hlt => vad_short_speech_all_incomplete cfg es1 es2 es3 hlt⟩

/-- Concrete configuration for exercising the segmentation result:
1000 Hz, 30 ms frames (60 bytes), 60 ms silence threshold (two frames),
60 ms minimum speech (two frames), 10 ms padding. -/
def vadCfgW : VADConfig where
  min_speech_duration_ms := 60
  silence_threshold_ms := 60
  max_pause_duration_ms := 800
  speech_pad_ms := 10
  sample_rate := 1000
  frame_duration_ms := 30

def ds1W : List Bytes := [List.replicate 60 0]

def ds2W : List Bytes := [List.replicate 60 1, List.replicate 60 1]

def ds3W : List Bytes := [List.replicate 60 2, List.replicate 60 2]

/-- Witness for C3: one leading silence frame, two speech frames, two
trailing silence frames at the concrete configuration satisfy the
claim's two rate hypotheses, and exactly one completed utterance is
returned. -/
theorem vad_utterance_segmentation_witness :
    vadCfgW.silence_threshold_ms ≤ 2 * vadCfgW.frame_duration_ms ∧
    vadCfgW.min_speech_duration_ms ≤ 2 * vadCfgW.frame_duration_ms ∧
    ((runVAD vadCfgW resetVAD
        (ds1W.map (fun b => (false, b)) ++ ds2W.map (fun b => (true, b)) ++
          ds3W.map (fun b => (false, b)))).2.countP
        (fun r => r.is_speech_complete)) = 1 :=
  ⟨by decide, by decide,
    (vad_utterance_segmentation vadCfgW 60 1 2 2 ds1W ds2W ds3W (by decide)
        (by decide) (by decide) (by decide) (by decide) (by decide) (by decide)
        (by decide) (by decide) (by decide) (by decide) (by decide) (by decide)
        (by decide)).1.1⟩
